import Mathlib

/-!
# CygnetCI work-dispatch core: shallow embedding and verification

This file embeds the work-dispatch core of the CygnetCI API
(`CygnetCI.Api/main.py`): the pickup-queue endpoints for releases and
pipelines, the release trigger fan-out (`deploy_release`), the approval
gate (`approve_stage` / `reject_stage`), and the release-level
aggregation performed by `complete_release_pickup`.

Modelling conventions:
* The database is a `Db` structure of row lists plus per-table
  autoincrement counters (SQLAlchemy `flush`/serial ids).
* `query(...).filter(id == x).first()` is `List.find?`;
  mutating the found ORM object is `updateFirst` (only the first
  matching row is replaced, exactly like the session's identity map).
* A handler takes the committed database and returns the new committed
  database together with an `Except HTTPError` result.  Every
  `raise HTTPException` happens before the single `db.commit()` at the
  end of each handler and `get_db` closes the session without
  committing, so an error leaves the committed state unchanged: error
  branches return the input `Db`.
* Timestamps (`datetime.now()`) are `Nat` parameters threaded into each
  handler; durations (`int(delta.total_seconds())`) are `Int`
  subtractions of those timestamps.
* Only the columns the embedded endpoints read or write are modelled.
-/

/-- Row of `agents` (`models.Agent`); only the columns the dispatch
endpoints read (`id`, `uuid`, `name`) are modelled. -/
structure Agent where
  id : Nat
  uuid : String
  name : String
  deriving DecidableEq

/-- Row of `environments` (`models.Environment`). -/
structure Environment where
  id : Nat
  name : String
  requires_approval : Bool
  deriving DecidableEq

/-- Row of `releases` (`models.Release`). -/
structure Release where
  id : Nat
  name : String
  deriving DecidableEq

/-- Row of `release_stages` (`models.ReleaseStage`). -/
structure ReleaseStage where
  id : Nat
  release_id : Nat
  environment_id : Nat
  order_index : Nat
  agent_id : Option Nat
  pre_deployment_approval : Bool
  deriving DecidableEq

/-- Row of `release_executions` (`models.ReleaseExecution`). -/
structure ReleaseExecution where
  id : Nat
  release_id : Nat
  release_number : String
  triggered_by : Option String
  status : String
  artifact_version : Option String
  started_at : Option Nat
  completed_at : Option Nat
  duration_seconds : Option Int
  deriving DecidableEq

/-- Row of `release_execution_parameters`
(`models.ReleaseExecutionParameter`). -/
structure ReleaseExecutionParameter where
  release_execution_id : Nat
  parameter_name : String
  parameter_value : String
  deriving DecidableEq

/-- Row of `stage_executions` (`models.StageExecution`). -/
structure StageExecution where
  id : Nat
  release_execution_id : Nat
  release_stage_id : Nat
  environment_id : Nat
  environment_name : String
  agent_id : Option Nat
  agent_name : Option String
  status : String
  approval_status : String
  approved_by : Option String
  approved_at : Option Nat
  approval_comments : Option String
  started_at : Option Nat
  completed_at : Option Nat
  duration_seconds : Option Int
  deriving DecidableEq

/-- Row of `release_pickup` (`models.ReleasePickup`). -/
structure ReleasePickup where
  id : Nat
  release_execution_id : Nat
  stage_execution_id : Nat
  agent_id : Nat
  agent_uuid : String
  agent_name : String
  status : String
  priority : Nat
  created_at : Nat
  picked_up_at : Option Nat
  started_at : Option Nat
  completed_at : Option Nat
  error_message : Option String
  deriving DecidableEq

/-- Row of `pipelines` (`models.Pipeline`); only the columns the
dispatch endpoints touch. -/
structure Pipeline where
  id : Nat
  name : String
  status : String
  agent_id : Option Nat
  last_run : Option Nat
  deriving DecidableEq

/-- Row of `pipeline_executions` (`models.PipelineExecution`).
`started_at` is a non-nullable column (`server_default=func.now()`), so
it is a plain `Nat`.  The table has no `duration_seconds` column
(models.py:205-227): the `duration_seconds` attribute assigned in
`complete_pipeline_pickup` is unmapped and silently dropped at commit,
so it is absent from this committed-state row. -/
structure PipelineExecution where
  id : Nat
  pipeline_id : Nat
  status : String
  started_at : Nat
  completed_at : Option Nat
  deriving DecidableEq

/-- Row of `pipeline_execution_params` (`models.PipelineExecutionParam`). -/
structure PipelineExecutionParam where
  execution_id : Nat
  param_name : String
  param_value : String
  deriving DecidableEq

/-- Row of `pipeline_pickup` (`models.PipelinePickup`). -/
structure PipelinePickup where
  id : Nat
  pipeline_execution_id : Nat
  pipeline_id : Nat
  pipeline_name : String
  agent_id : Nat
  agent_uuid : String
  agent_name : String
  status : String
  priority : Nat
  created_at : Nat
  picked_up_at : Option Nat
  started_at : Option Nat
  completed_at : Option Nat
  error_message : Option String
  deriving DecidableEq

/-- The committed database state: one list per table plus the
autoincrement counters used when new rows are flushed. -/
structure Db where
  agents : List Agent
  environments : List Environment
  releases : List Release
  releaseStages : List ReleaseStage
  releaseExecutions : List ReleaseExecution
  releaseParams : List ReleaseExecutionParameter
  stageExecutions : List StageExecution
  releasePickups : List ReleasePickup
  pipelines : List Pipeline
  pipelineExecutions : List PipelineExecution
  pipelineParams : List PipelineExecutionParam
  pipelinePickups : List PipelinePickup
  nextReleaseExecutionId : Nat
  nextStageExecutionId : Nat
  nextReleasePickupId : Nat
  nextPipelineExecutionId : Nat
  nextPipelinePickupId : Nat
  deriving DecidableEq

/-- An `HTTPException(status_code, detail)` raised by a handler. -/
structure HTTPError where
  code : Nat
  detail : String
  deriving DecidableEq

/-- Body of `POST /releases/{id}/deploy` (`DeployReleaseRequest`). -/
structure DeployReleaseRequest where
  triggered_by : String
  artifact_version : Option String
  agent_id : Option Nat
  parameters : List (String × String)
  deriving DecidableEq

/-- Body of `POST /stage-executions/{id}/approve|reject`
(`ApprovalRequest`). -/
structure ApprovalRequest where
  approved_by : String
  comments : Option String
  deriving DecidableEq

/-- Body of `POST /pipelines/{id}/run` (`RunPipelineRequest`). -/
structure RunPipelineRequest where
  agent_id : Option Nat
  parameters : List (String × String)
  deriving DecidableEq

/-- Replace the first element satisfying `p` by its image under `f` —
the effect of mutating the object returned by `.first()` and
committing. -/
def updateFirst (p : α → Bool) (f : α → α) : List α → List α
  | [] => []
  | x :: xs => if p x then f x :: xs else x :: updateFirst p f xs

/-- The terminal stage statuses scanned by the aggregation in
`complete_release_pickup`:
`s.status in ["succeeded", "failed", "cancelled", "skipped"]`. -/
def stageTerminal (status : String) : Bool :=
  ["succeeded", "failed", "cancelled", "skipped"].contains status

/-- The poll visibility filter of `get_pending_releases`:
`agent_uuid` matches and `status.in_(["pending", "picked_up"])`. -/
def releasePickupVisible (uuid : String) (p : ReleasePickup) : Bool :=
  p.agent_uuid == uuid && ["pending", "picked_up"].contains p.status

/-- The poll visibility filter of `get_pending_pipelines`. -/
def pipelinePickupVisible (uuid : String) (p : PipelinePickup) : Bool :=
  p.agent_uuid == uuid && ["pending", "picked_up"].contains p.status

/-- `ORDER BY priority, created_at` on release pickups. -/
def releasePickupOrder (p q : ReleasePickup) : Prop :=
  p.priority < q.priority ∨ (p.priority = q.priority ∧ p.created_at ≤ q.created_at)

instance : DecidableRel releasePickupOrder := fun p q => by
  unfold releasePickupOrder; infer_instance

/-- `ORDER BY priority, created_at` on pipeline pickups. -/
def pipelinePickupOrder (p q : PipelinePickup) : Prop :=
  p.priority < q.priority ∨ (p.priority = q.priority ∧ p.created_at ≤ q.created_at)

instance : DecidableRel pipelinePickupOrder := fun p q => by
  unfold pipelinePickupOrder; infer_instance

/-- `ORDER BY order_index` on release stages. -/
def stageOrder (a b : ReleaseStage) : Prop :=
  a.order_index ≤ b.order_index

instance : DecidableRel stageOrder := fun a b => by
  unfold stageOrder; infer_instance

/-- `GET /releases/pickup/{agent_uuid}` (`get_pending_releases`,
main.py:2633): verify the agent exists, then return this agent's
pickups with status in `{pending, picked_up}` ordered by
`(priority, created_at)`.  The endpoint is read-only; the embedding
returns the pickup rows underlying the response entries (the per-row
join enrichment adds display fields only and does not change which
pickups are returned or their order). -/
def get_pending_releases (db : Db) (agent_uuid : String) :
    Except HTTPError (List ReleasePickup) :=
  match db.agents.find? (fun a => a.uuid == agent_uuid) with
  | none => .error ⟨404, "Agent not found"⟩
  | some _ =>
      .ok (List.insertionSort releasePickupOrder
        (db.releasePickups.filter (releasePickupVisible agent_uuid)))

/-- `GET /pipelines/pickup/{agent_uuid}` (`get_pending_pipelines`,
main.py:2842); same shape as `get_pending_releases`. -/
def get_pending_pipelines (db : Db) (agent_uuid : String) :
    Except HTTPError (List PipelinePickup) :=
  match db.agents.find? (fun a => a.uuid == agent_uuid) with
  | none => .error ⟨404, "Agent not found"⟩
  | some _ =>
      .ok (List.insertionSort pipelinePickupOrder
        (db.pipelinePickups.filter (pipelinePickupVisible agent_uuid)))

/-- `POST /releases/pickup/{pickup_id}/acknowledge`
(`acknowledge_release_pickup`, main.py:2722): set the pickup to
`picked_up` and stamp `picked_up_at`; set the owning stage execution to
`in_progress` and stamp its `started_at` (skipped when the stage row is
absent, mirroring `if stage_execution:`).  There is no prior-state
guard: the writes are unconditional. -/
def acknowledge_release_pickup (db : Db) (pickup_id : Nat) (now : Nat) :
    Db × Except HTTPError Unit :=
  match db.releasePickups.find? (fun p => p.id == pickup_id) with
  | none => (db, .error ⟨404, "Pickup not found"⟩)
  | some pickup =>
      let pickups := updateFirst (fun p => p.id == pickup_id)
        (fun p => { p with status := "picked_up", picked_up_at := some now })
        db.releasePickups
      let stages := updateFirst (fun s => s.id == pickup.stage_execution_id)
        (fun s => { s with status := "in_progress", started_at := some now })
        db.stageExecutions
      ({ db with releasePickups := pickups, stageExecutions := stages }, .ok ())

/-- `POST /releases/pickup/{pickup_id}/start`
(`start_release_execution`, main.py:2746): set the pickup to
`in_progress` and stamp its `started_at`; nothing else is touched. -/
def start_release_execution (db : Db) (pickup_id : Nat) (now : Nat) :
    Db × Except HTTPError Unit :=
  match db.releasePickups.find? (fun p => p.id == pickup_id) with
  | none => (db, .error ⟨404, "Pickup not found"⟩)
  | some _ =>
      let pickups := updateFirst (fun p => p.id == pickup_id)
        (fun p => { p with status := "in_progress", started_at := some now })
        db.releasePickups
      ({ db with releasePickups := pickups }, .ok ())

/-- The pickup-row write of `complete_release_pickup`
(main.py:2771-2774). -/
def completePickupUpdate (success : Bool) (error_message : Option String)
    (now : Nat) (p : ReleasePickup) : ReleasePickup :=
  { p with
    status := if success then "completed" else "failed",
    completed_at := some now,
    error_message := match error_message with
      | some m => some m
      | none => p.error_message }

/-- The stage-row write of `complete_release_pickup`
(main.py:2781-2788): terminal status, completion stamp, duration from
the stage's own `started_at` when present. -/
def completeStageUpdate (success : Bool) (now : Nat)
    (s : StageExecution) : StageExecution :=
  let s' := { s with
    status := if success then "succeeded" else "failed",
    completed_at := some now }
  match s.started_at with
  | some t => { s' with duration_seconds := some ((now : Int) - (t : Int)) }
  | none => s'

/-- The release-row write of the aggregation branch of
`complete_release_pickup` (main.py:2803-2810). -/
def completeReleaseUpdate (any_failed : Bool) (now : Nat)
    (r : ReleaseExecution) : ReleaseExecution :=
  let r' := { r with
    status := if any_failed then "failed" else "succeeded",
    completed_at := some now }
  match r.started_at with
  | some t => { r' with duration_seconds := some ((now : Int) - (t : Int)) }
  | none => r'

/-- `POST /releases/pickup/{pickup_id}/complete`
(`complete_release_pickup`, main.py:2760): set the pickup to
`completed`/`failed` (keeping `error_message` unless a non-empty one is
supplied, mirroring `if error_message:`), set the owning stage to
`succeeded`/`failed` with `completed_at` and a duration from the
stage's own `started_at`, then re-scan all sibling stages of the
release execution: if every sibling has a terminal status, the release
execution becomes `failed` when some sibling is `failed` and
`succeeded` otherwise, with `completed_at` and a duration from its
`started_at`; otherwise the release execution is untouched. -/
def complete_release_pickup (db : Db) (pickup_id : Nat) (success : Bool)
    (error_message : Option String) (now : Nat) : Db × Except HTTPError Unit :=
  match db.releasePickups.find? (fun p => p.id == pickup_id) with
  | none => (db, .error ⟨404, "Pickup not found"⟩)
  | some pickup =>
      let pickups := updateFirst (fun p => p.id == pickup_id)
        (completePickupUpdate success error_message now)
        db.releasePickups
      let stages := updateFirst (fun s => s.id == pickup.stage_execution_id)
        (completeStageUpdate success now)
        db.stageExecutions
      let rels :=
        match db.releaseExecutions.find? (fun r => r.id == pickup.release_execution_id) with
        | none => db.releaseExecutions
        | some re =>
            let all_stages := stages.filter
              (fun s => s.release_execution_id == re.id)
            let all_completed := all_stages.all (fun s => stageTerminal s.status)
            let any_failed := all_stages.any (fun s => s.status == "failed")
            if all_completed then
              updateFirst (fun r => r.id == pickup.release_execution_id)
                (completeReleaseUpdate any_failed now)
                db.releaseExecutions
            else db.releaseExecutions
      ({ db with releasePickups := pickups, stageExecutions := stages,
                 releaseExecutions := rels }, .ok ())

/-- The agent used for a stage in `deploy_release`
(main.py:1775-1780): the stage's own agent when `stage.agent_id` is
set (no fallback if that row is missing), else the request-level
agent. -/
def resolveStageAgent (db : Db) (reqAgent : Option Agent)
    (stage : ReleaseStage) : Option Agent :=
  match stage.agent_id with
  | some aid => db.agents.find? (fun a => a.id == aid)
  | none => reqAgent

/-- The approval test of `deploy_release` (main.py:1783):
`stage.pre_deployment_approval or (environment and
environment.requires_approval)`. -/
def stageRequiresApproval (db : Db) (stage : ReleaseStage) : Bool :=
  stage.pre_deployment_approval ||
    (match db.environments.find? (fun e => e.id == stage.environment_id) with
     | some e => e.requires_approval
     | none => false)

/-- The per-stage loop of `deploy_release` (main.py:1772-1814): for
each stage, create a `StageExecution` (ids taken from the stage
counter) in `awaiting_approval`/`pending` according to
`stageRequiresApproval`, and a pending `ReleasePickup` (ids from the
pickup counter, priority = the stage's `order_index`) exactly when an
agent resolved and no approval is required. -/
def deployStages (db : Db) (reId : Nat) (reqAgent : Option Agent) (now : Nat) :
    List ReleaseStage → Nat → Nat → List StageExecution × List ReleasePickup
  | [], _, _ => ([], [])
  | stage :: rest, nextSE, nextPU =>
      let env := db.environments.find? (fun e => e.id == stage.environment_id)
      let stage_agent := resolveStageAgent db reqAgent stage
      let needsApproval := stageRequiresApproval db stage
      let se : StageExecution :=
        { id := nextSE
          release_execution_id := reId
          release_stage_id := stage.id
          environment_id := stage.environment_id
          environment_name := match env with | some e => e.name | none => "Unknown"
          agent_id := stage_agent.map (fun a => a.id)
          agent_name := stage_agent.map (fun a => a.name)
          status := if needsApproval then "awaiting_approval" else "pending"
          approval_status := if needsApproval then "pending" else "not_required"
          approved_by := none
          approved_at := none
          approval_comments := none
          started_at := none
          completed_at := none
          duration_seconds := none }
      match stage_agent, needsApproval with
      | some ag, false =>
          let pu : ReleasePickup :=
            { id := nextPU
              release_execution_id := reId
              stage_execution_id := nextSE
              agent_id := ag.id
              agent_uuid := ag.uuid
              agent_name := ag.name
              status := "pending"
              priority := stage.order_index
              created_at := now
              picked_up_at := none
              started_at := none
              completed_at := none
              error_message := none }
          let rec_result := deployStages db reId reqAgent now rest (nextSE + 1) (nextPU + 1)
          (se :: rec_result.1, pu :: rec_result.2)
      | _, _ =>
          let rec_result := deployStages db reId reqAgent now rest (nextSE + 1) nextPU
          (se :: rec_result.1, rec_result.2)

/-- The request-level agent resolution of `deploy_release`
(main.py:1764-1769): no request agent means none; a request agent id
that is unknown is a 404. -/
def resolveRequestAgent (db : Db) (req : DeployReleaseRequest) :
    Except HTTPError (Option Agent) :=
  match req.agent_id with
  | none => .ok none
  | some aid =>
      match db.agents.find? (fun a => a.id == aid) with
      | none => .error ⟨404, "Agent not found"⟩
      | some agent => .ok (some agent)

/-- `POST /releases/{release_id}/deploy` (`deploy_release`,
main.py:1720): look up the release, collect its stages ordered by
`order_index` (400 when empty), create the `ReleaseExecution`
(status `in_progress`, `started_at = now`,
`release_number = "Release-" ++ (count+1)`), persist the request
parameters, resolve the optional request-level agent (404 when the id
is unknown), then run the per-stage loop.  All rows become visible only
at the final `db.commit()`; every error is raised before it, so the
error branches return the input database. -/
def deploy_release (db : Db) (release_id : Nat) (req : DeployReleaseRequest)
    (now : Nat) : Db × Except HTTPError Nat :=
  match db.releases.find? (fun r => r.id == release_id) with
  | none => (db, .error ⟨404, "Release not found"⟩)
  | some _ =>
      let stages := List.insertionSort stageOrder
        (db.releaseStages.filter (fun s => s.release_id == release_id))
      if stages.isEmpty then
        (db, .error ⟨400, "Release has no stages configured"⟩)
      else
        let execution_count :=
          (db.releaseExecutions.filter (fun e => e.release_id == release_id)).length
        let reId := db.nextReleaseExecutionId
        let re : ReleaseExecution :=
          { id := reId
            release_id := release_id
            release_number := "Release-" ++ toString (execution_count + 1)
            triggered_by := some req.triggered_by
            status := "in_progress"
            artifact_version := req.artifact_version
            started_at := some now
            completed_at := none
            duration_seconds := none }
        let params := req.parameters.map
          (fun nv => ReleaseExecutionParameter.mk reId nv.1 nv.2)
        match resolveRequestAgent db req with
        | .error e => (db, .error e)
        | .ok reqAgent =>
            let fanout := deployStages db reId reqAgent now stages
              db.nextStageExecutionId db.nextReleasePickupId
            ({ db with
                releaseExecutions := db.releaseExecutions ++ [re]
                releaseParams := db.releaseParams ++ params
                stageExecutions := db.stageExecutions ++ fanout.1
                releasePickups := db.releasePickups ++ fanout.2
                nextReleaseExecutionId := reId + 1
                nextStageExecutionId := db.nextStageExecutionId + fanout.1.length
                nextReleasePickupId := db.nextReleasePickupId + fanout.2.length },
             .ok reId)

/-- `POST /stage-executions/{id}/approve` (`approve_stage`,
main.py:1873): 404 when the stage execution is unknown, 400
("Stage is not pending approval") when `approval_status != "pending"`;
otherwise record the approval, set the stage's status to `pending`,
and — when the stage has an agent and that agent row exists — create
the deferred pending `ReleasePickup` whose priority is the owning
release stage's `order_index` (0 when that row is missing). -/
def approve_stage (db : Db) (stage_execution_id : Nat) (req : ApprovalRequest)
    (now : Nat) : Db × Except HTTPError Unit :=
  match db.stageExecutions.find? (fun s => s.id == stage_execution_id) with
  | none => (db, .error ⟨404, "Stage execution not found"⟩)
  | some st =>
      if st.approval_status != "pending" then
        (db, .error ⟨400, "Stage is not pending approval"⟩)
      else
        let stages := updateFirst (fun s => s.id == stage_execution_id)
          (fun s => { s with
              approval_status := "approved"
              approved_by := some req.approved_by
              approved_at := some now
              approval_comments := req.comments
              status := "pending" })
          db.stageExecutions
        match st.agent_id with
        | none => ({ db with stageExecutions := stages }, .ok ())
        | some aid =>
            match db.agents.find? (fun a => a.id == aid) with
            | none => ({ db with stageExecutions := stages }, .ok ())
            | some agent =>
                let prio :=
                  match db.releaseStages.find? (fun rs => rs.id == st.release_stage_id) with
                  | some rs => rs.order_index
                  | none => 0
                let pu : ReleasePickup :=
                  { id := db.nextReleasePickupId
                    release_execution_id := st.release_execution_id
                    stage_execution_id := st.id
                    agent_id := agent.id
                    agent_uuid := agent.uuid
                    agent_name := agent.name
                    status := "pending"
                    priority := prio
                    created_at := now
                    picked_up_at := none
                    started_at := none
                    completed_at := none
                    error_message := none }
                ({ db with stageExecutions := stages
                           releasePickups := db.releasePickups ++ [pu]
                           nextReleasePickupId := db.nextReleasePickupId + 1 },
                 .ok ())

/-- `POST /stage-executions/{id}/reject` (`reject_stage`,
main.py:1917): same guards as `approve_stage`; on success record the
rejection, set the stage to `cancelled`, and set the parent release
execution (when present) to `failed` with `completed_at = now`.  No
pickup is created. -/
def reject_stage (db : Db) (stage_execution_id : Nat) (req : ApprovalRequest)
    (now : Nat) : Db × Except HTTPError Unit :=
  match db.stageExecutions.find? (fun s => s.id == stage_execution_id) with
  | none => (db, .error ⟨404, "Stage execution not found"⟩)
  | some st =>
      if st.approval_status != "pending" then
        (db, .error ⟨400, "Stage is not pending approval"⟩)
      else
        let stages := updateFirst (fun s => s.id == stage_execution_id)
          (fun s => { s with
              approval_status := "rejected"
              approved_by := some req.approved_by
              approved_at := some now
              approval_comments := req.comments
              status := "cancelled" })
          db.stageExecutions
        let rels := updateFirst (fun r => r.id == st.release_execution_id)
          (fun r => { r with status := "failed", completed_at := some now })
          db.releaseExecutions
        ({ db with stageExecutions := stages, releaseExecutions := rels }, .ok ())

/-- `POST /pipelines/{pipeline_id}/run` (`run_pipeline`,
main.py:1157): look up the pipeline, resolve the agent (request agent
id, else the pipeline's default; 400 when neither, 404 when the id is
unknown), set the pipeline to `pending` stamping `last_run`, create the
`PipelineExecution` (status `running`, `started_at = now`), persist the
parameters and create exactly one pending `PipelinePickup` with
priority 0. -/
def run_pipeline (db : Db) (pipeline_id : Nat) (req : RunPipelineRequest)
    (now : Nat) : Db × Except HTTPError Nat :=
  match db.pipelines.find? (fun p => p.id == pipeline_id) with
  | none => (db, .error ⟨404, "Pipeline not found"⟩)
  | some pl =>
      let aid? := match req.agent_id with
        | some a => some a
        | none => pl.agent_id
      match aid? with
      | none => (db, .error ⟨400, "No agent specified for pipeline execution"⟩)
      | some aid =>
          match db.agents.find? (fun a => a.id == aid) with
          | none => (db, .error ⟨404, "Agent not found"⟩)
          | some agent =>
              let pipelines := updateFirst (fun p => p.id == pipeline_id)
                (fun p => { p with status := "pending", last_run := some now })
                db.pipelines
              let exId := db.nextPipelineExecutionId
              let ex : PipelineExecution :=
                { id := exId
                  pipeline_id := pipeline_id
                  status := "running"
                  started_at := now
                  completed_at := none }
              let params := req.parameters.map
                (fun nv => PipelineExecutionParam.mk exId nv.1 nv.2)
              let pu : PipelinePickup :=
                { id := db.nextPipelinePickupId
                  pipeline_execution_id := exId
                  pipeline_id := pipeline_id
                  pipeline_name := pl.name
                  agent_id := agent.id
                  agent_uuid := agent.uuid
                  agent_name := agent.name
                  status := "pending"
                  priority := 0
                  created_at := now
                  picked_up_at := none
                  started_at := none
                  completed_at := none
                  error_message := none }
              ({ db with
                  pipelines := pipelines
                  pipelineExecutions := db.pipelineExecutions ++ [ex]
                  pipelineParams := db.pipelineParams ++ params
                  pipelinePickups := db.pipelinePickups ++ [pu]
                  nextPipelineExecutionId := exId + 1
                  nextPipelinePickupId := db.nextPipelinePickupId + 1 },
               .ok exId)

/-- `POST /pipelines/pickup/{pickup_id}/acknowledge`
(`acknowledge_pipeline_pickup`, main.py:2912): set the pickup to
`picked_up` and stamp `picked_up_at`; nothing else is touched, and
there is no prior-state guard. -/
def acknowledge_pipeline_pickup (db : Db) (pickup_id : Nat) (now : Nat) :
    Db × Except HTTPError Unit :=
  match db.pipelinePickups.find? (fun p => p.id == pickup_id) with
  | none => (db, .error ⟨404, "Pickup not found"⟩)
  | some _ =>
      let pickups := updateFirst (fun p => p.id == pickup_id)
        (fun p => { p with status := "picked_up", picked_up_at := some now })
        db.pipelinePickups
      ({ db with pipelinePickups := pickups }, .ok ())

/-- `POST /pipelines/pickup/{pickup_id}/start` (`start_pipeline_pickup`,
main.py:2927): set the pickup to `in_progress` stamping `started_at`,
and set both the pipeline execution and the pipeline to `running`. -/
def start_pipeline_pickup (db : Db) (pickup_id : Nat) (now : Nat) :
    Db × Except HTTPError Unit :=
  match db.pipelinePickups.find? (fun p => p.id == pickup_id) with
  | none => (db, .error ⟨404, "Pickup not found"⟩)
  | some pickup =>
      let pickups := updateFirst (fun p => p.id == pickup_id)
        (fun p => { p with status := "in_progress", started_at := some now })
        db.pipelinePickups
      let executions := updateFirst (fun e => e.id == pickup.pipeline_execution_id)
        (fun e => { e with status := "running" })
        db.pipelineExecutions
      let pipelines := updateFirst (fun p => p.id == pickup.pipeline_id)
        (fun p => { p with status := "running" })
        db.pipelines
      ({ db with pipelinePickups := pickups, pipelineExecutions := executions,
                 pipelines := pipelines }, .ok ())

/-- `POST /pipelines/pickup/{pickup_id}/complete`
(`complete_pipeline_pickup`, main.py:2958): set the pickup to
`completed`/`failed` with `completed_at` and overwrite its
`error_message`; set the pipeline execution to `"success"`/`"failed"`
with `completed_at`; set the pipeline itself to
`"success"`/`"failed"`.  The duration assignment at main.py:2984
targets an attribute `pipeline_executions` has no column for, so it is
dropped at commit and does not appear in the committed state. -/
def complete_pipeline_pickup (db : Db) (pickup_id : Nat) (success : Bool)
    (error_message : Option String) (now : Nat) : Db × Except HTTPError Unit :=
  match db.pipelinePickups.find? (fun p => p.id == pickup_id) with
  | none => (db, .error ⟨404, "Pickup not found"⟩)
  | some pickup =>
      let pickups := updateFirst (fun p => p.id == pickup_id)
        (fun p => { p with
            status := if success then "completed" else "failed",
            completed_at := some now,
            error_message := error_message })
        db.pipelinePickups
      let executions := updateFirst (fun e => e.id == pickup.pipeline_execution_id)
        (fun e => { e with
            status := if success then "success" else "failed",
            completed_at := some now })
        db.pipelineExecutions
      let pipelines := updateFirst (fun p => p.id == pickup.pipeline_id)
        (fun p => { p with status := if success then "success" else "failed" })
        db.pipelines
      ({ db with pipelinePickups := pickups, pipelineExecutions := executions,
                 pipelines := pipelines }, .ok ())

instance : IsTotal ReleasePickup releasePickupOrder := by
  constructor
  intro p q
  unfold releasePickupOrder
  rcases Nat.lt_trichotomy p.priority q.priority with h | h | h
  · exact Or.inl (Or.inl h)
  · rcases Nat.le_total p.created_at q.created_at with h' | h'
    · exact Or.inl (Or.inr ⟨h, h'⟩)
    · exact Or.inr (Or.inr ⟨h.symm, h'⟩)
  · exact Or.inr (Or.inl h)

instance : IsTrans ReleasePickup releasePickupOrder := by
  constructor
  intro a b c hab hbc
  unfold releasePickupOrder at *
  rcases hab with h | ⟨h1, h2⟩ <;> rcases hbc with h' | ⟨h1', h2'⟩
  · exact Or.inl (h.trans h')
  · exact Or.inl (h1' ▸ h)
  · exact Or.inl (h1 ▸ h')
  · exact Or.inr ⟨h1.trans h1', h2.trans h2'⟩

instance : IsTotal PipelinePickup pipelinePickupOrder := by
  constructor
  intro p q
  unfold pipelinePickupOrder
  rcases Nat.lt_trichotomy p.priority q.priority with h | h | h
  · exact Or.inl (Or.inl h)
  · rcases Nat.le_total p.created_at q.created_at with h' | h'
    · exact Or.inl (Or.inr ⟨h, h'⟩)
    · exact Or.inr (Or.inr ⟨h.symm, h'⟩)
  · exact Or.inr (Or.inl h)

instance : IsTrans PipelinePickup pipelinePickupOrder := by
  constructor
  intro a b c hab hbc
  unfold pipelinePickupOrder at *
  rcases hab with h | ⟨h1, h2⟩ <;> rcases hbc with h' | ⟨h1', h2'⟩
  · exact Or.inl (h.trans h')
  · exact Or.inl (h1' ▸ h)
  · exact Or.inl (h1 ▸ h')
  · exact Or.inr ⟨h1.trans h1', h2.trans h2'⟩

instance : IsTotal ReleaseStage stageOrder :=
  ⟨fun a b => by unfold stageOrder; exact Nat.le_total _ _⟩

instance : IsTrans ReleaseStage stageOrder :=
  ⟨fun a b c => by unfold stageOrder; exact Nat.le_trans⟩

/-- Statement predicate: the `StageExecution` row created by
`deploy_release` for stage `stg` has the fields the fan-out rule
dictates (status and approval per the approval test, agent per the
resolution rule). -/
def stageRowMatch (db : Db) (reqAgent : Option Agent) (reId : Nat)
    (stg : ReleaseStage) (se : StageExecution) : Prop :=
  se.release_execution_id = reId ∧
  se.release_stage_id = stg.id ∧
  se.environment_id = stg.environment_id ∧
  se.agent_id = (resolveStageAgent db reqAgent stg).map (fun a => a.id) ∧
  se.agent_name = (resolveStageAgent db reqAgent stg).map (fun a => a.name) ∧
  se.status = (if stageRequiresApproval db stg then "awaiting_approval" else "pending") ∧
  se.approval_status = (if stageRequiresApproval db stg then "pending" else "not_required")

/-- Statement predicate: among the pickup rows `pus`, stage execution
`se` created for stage `stg` has exactly one pending pickup bound to
the resolved agent when an agent resolved and no approval is required,
and none otherwise. -/
def stagePickupSpec (db : Db) (reqAgent : Option Agent) (now : Nat)
    (pus : List ReleasePickup) (stg : ReleaseStage) (se : StageExecution) : Prop :=
  match resolveStageAgent db reqAgent stg, stageRequiresApproval db stg with
  | some ag, false =>
      ∃ pu, pus.filter (fun p => p.stage_execution_id == se.id) = [pu] ∧
        pu.agent_id = ag.id ∧ pu.agent_uuid = ag.uuid ∧ pu.agent_name = ag.name ∧
        pu.status = "pending" ∧ pu.priority = stg.order_index ∧
        pu.created_at = now ∧ pu.release_execution_id = se.release_execution_id
  | _, _ => pus.filter (fun p => p.stage_execution_id == se.id) = []

/-- One inbound request against the dispatch core, with its
`datetime.now()` value. -/
inductive DispatchOp where
  | deployRelease (release_id : Nat) (req : DeployReleaseRequest) (now : Nat)
  | approveStage (stage_execution_id : Nat) (req : ApprovalRequest) (now : Nat)
  | rejectStage (stage_execution_id : Nat) (req : ApprovalRequest) (now : Nat)
  | ackRelease (pickup_id : Nat) (now : Nat)
  | startRelease (pickup_id : Nat) (now : Nat)
  | completeRelease (pickup_id : Nat) (success : Bool) (em : Option String) (now : Nat)
  | runPipeline (pipeline_id : Nat) (req : RunPipelineRequest) (now : Nat)
  | ackPipeline (pickup_id : Nat) (now : Nat)
  | startPipeline (pickup_id : Nat) (now : Nat)
  | completePipeline (pickup_id : Nat) (success : Bool) (em : Option String) (now : Nat)
  deriving DecidableEq

/-- The committed database after one request (errors commit nothing). -/
def applyDispatchOp (db : Db) : DispatchOp → Db
  | .deployRelease rid req now => (deploy_release db rid req now).1
  | .approveStage sid req now => (approve_stage db sid req now).1
  | .rejectStage sid req now => (reject_stage db sid req now).1
  | .ackRelease pid now => (acknowledge_release_pickup db pid now).1
  | .startRelease pid now => (start_release_execution db pid now).1
  | .completeRelease pid s em now => (complete_release_pickup db pid s em now).1
  | .runPipeline plid req now => (run_pipeline db plid req now).1
  | .ackPipeline pid now => (acknowledge_pipeline_pickup db pid now).1
  | .startPipeline pid now => (start_pipeline_pickup db pid now).1
  | .completePipeline pid s em now => (complete_pipeline_pickup db pid s em now).1

/-- The committed database after a sequence of requests. -/
def applyDispatchOps (db : Db) (ops : List DispatchOp) : Db :=
  ops.foldl applyDispatchOp db

/-- The lasting state of an agent-less, approval-free stage execution
`sid` of release execution `rid`: no pickup row references it, its row
is still `pending`/`not_required`, and stage-execution ids stay below
the id counter (so freshly created rows never alias it). -/
def StageUnreachable (db : Db) (sid rid : Nat) : Prop :=
  (∀ p ∈ db.releasePickups, p.stage_execution_id ≠ sid) ∧
  (∃ s, db.stageExecutions.find? (fun x => x.id == sid) = some s ∧
     s.status = "pending" ∧ s.approval_status = "not_required" ∧
     s.release_execution_id = rid) ∧
  (∀ s ∈ db.stageExecutions, s.id < db.nextStageExecutionId)

/-- A database with empty tables and serial counters at 1. -/
def emptyDb : Db :=
  { agents := []
    environments := []
    releases := []
    releaseStages := []
    releaseExecutions := []
    releaseParams := []
    stageExecutions := []
    releasePickups := []
    pipelines := []
    pipelineExecutions := []
    pipelineParams := []
    pipelinePickups := []
    nextReleaseExecutionId := 1
    nextStageExecutionId := 1
    nextReleasePickupId := 1
    nextPipelineExecutionId := 1
    nextPipelinePickupId := 1 }

/-- Concrete agent used by the witness scenarios. -/
def agentOne : Agent := { id := 1, uuid := "uuid-1", name := "agent-one" }

/-- Concrete approval-free environment. -/
def envDev : Environment := { id := 1, name := "dev", requires_approval := false }

/-- A completed release pickup, for exercising the terminal states. -/
def donePickup : ReleasePickup :=
  { id := 1
    release_execution_id := 1
    stage_execution_id := 1
    agent_id := 1
    agent_uuid := "uuid-1"
    agent_name := "agent-one"
    status := "completed"
    priority := 0
    created_at := 0
    picked_up_at := some 1
    started_at := some 2
    completed_at := some 3
    error_message := none }

/-- A pending release pickup owned by `agentOne`. -/
def pendingPickup : ReleasePickup :=
  { donePickup with status := "pending", picked_up_at := none,
                    started_at := none, completed_at := none }

/-- A pending stage execution row owned by release execution 1. -/
def pendingStageExec : StageExecution :=
  { id := 1
    release_execution_id := 1
    release_stage_id := 1
    environment_id := 1
    environment_name := "dev"
    agent_id := some 1
    agent_name := some "agent-one"
    status := "pending"
    approval_status := "not_required"
    approved_by := none
    approved_at := none
    approval_comments := none
    started_at := none
    completed_at := none
    duration_seconds := none }

/-- A stage execution awaiting approval. -/
def awaitingStageExec : StageExecution :=
  { pendingStageExec with status := "awaiting_approval", approval_status := "pending" }

/-- A running release execution row. -/
def runningReleaseExec : ReleaseExecution :=
  { id := 1
    release_id := 1
    release_number := "Release-1"
    triggered_by := some "tester"
    status := "in_progress"
    artifact_version := none
    started_at := some 0
    completed_at := none
    duration_seconds := none }

/-- Scenario: one agent, one running release execution with a single
pending stage and its pending pickup. -/
def singleStageDb : Db :=
  { emptyDb with
    agents := [agentOne]
    environments := [envDev]
    releaseExecutions := [runningReleaseExec]
    stageExecutions := [pendingStageExec]
    releasePickups := [pendingPickup]
    nextReleaseExecutionId := 2
    nextStageExecutionId := 2
    nextReleasePickupId := 2 }

/-- Scenario: the single pickup is already completed. -/
def completedPickupDb : Db :=
  { singleStageDb with
    releasePickups := [donePickup]
    stageExecutions := [{ pendingStageExec with status := "succeeded" }] }

/-- Scenario: one stage awaiting approval, no pickup yet. -/
def awaitingApprovalDb : Db :=
  { singleStageDb with
    stageExecutions := [awaitingStageExec]
    releasePickups := []
    releaseStages := [{ id := 1, release_id := 1, environment_id := 1,
                        order_index := 4, agent_id := some 1,
                        pre_deployment_approval := true }] }

/-- Concrete release stage with no agent and no approval gate. -/
def agentlessStage : ReleaseStage :=
  { id := 1
    release_id := 1
    environment_id := 1
    order_index := 0
    agent_id := none
    pre_deployment_approval := false }

/-- Scenario: a release whose single stage has no agent binding. -/
def agentlessReleaseDb : Db :=
  { emptyDb with
    environments := [envDev]
    releases := [{ id := 1, name := "rel" }]
    releaseStages := [agentlessStage] }

/-- Scenario: a pipeline bound to `agentOne`, ready to run. -/
def pipelineDb : Db :=
  { emptyDb with
    agents := [agentOne]
    pipelines := [{ id := 1, name := "build", status := "pending",
                    agent_id := some 1, last_run := none }] }

/-- The `pipelineDb` scenario carried through
run → acknowledge → start → complete(success) at times 1,2,3,4. -/
def pipelineRoundTripDb : Db :=
  (complete_pipeline_pickup
    (start_pipeline_pickup
      (acknowledge_pipeline_pickup
        (run_pipeline pipelineDb 1 ⟨some 1, []⟩ 1).1
        1 2).1
      1 3).1
    1 true none 4).1

/-- A pending pipeline pickup owned by `agentOne`. -/
def pendingPipePickup : PipelinePickup :=
  { id := 1
    pipeline_execution_id := 1
    pipeline_id := 1
    pipeline_name := "build"
    agent_id := 1
    agent_uuid := "uuid-1"
    agent_name := "agent-one"
    status := "pending"
    priority := 0
    created_at := 1
    picked_up_at := none
    started_at := none
    completed_at := none
    error_message := none }

/-- A running pipeline execution started at time 1. -/
def runningPipeExec : PipelineExecution :=
  { id := 1
    pipeline_id := 1
    status := "running"
    started_at := 1
    completed_at := none }

/-- Scenario combining `singleStageDb` with a running pipeline
execution and its pending pickup. -/
def mixedDb : Db :=
  { singleStageDb with
    pipelines := [{ id := 1, name := "build", status := "pending",
                    agent_id := some 1, last_run := some 1 }]
    pipelineExecutions := [runningPipeExec]
    pipelinePickups := [pendingPipePickup]
    nextPipelineExecutionId := 2
    nextPipelinePickupId := 2 }

/-- A second stage execution of release execution 1 with no agent
bound and no approval required. -/
def orphanStageExec : StageExecution :=
  { pendingStageExec with id := 2, agent_id := none, agent_name := none }

/-- Scenario: release execution 1 has a normal first stage (with a
pending pickup) and an agent-less second stage that no pickup
references. -/
def orphanDb : Db :=
  { singleStageDb with
    stageExecutions := [pendingStageExec, orphanStageExec]
    nextStageExecutionId := 3 }

/-! ## Toolkit lemmas about `updateFirst` -/

theorem updateFirst_of_find?_none {p : α → Bool} (f : α → α) :
    ∀ {l : List α}, l.find? p = none → updateFirst p f l = l
  | [], _ => rfl
  | x :: xs, h => by
      rw [List.find?_eq_none] at h
      have hx : p x = false := by
        have := h x (List.mem_cons_self x xs)
        simpa using this
      simp only [updateFirst, hx, Bool.false_eq_true, if_false]
      rw [updateFirst_of_find?_none f]
      rw [List.find?_eq_none]
      intro y hy
      exact h y (List.mem_cons_of_mem x hy)

theorem find?_updateFirst_self {p : α → Bool} {f : α → α} :
    ∀ {l : List α} {x : α}, l.find? p = some x → p (f x) = true →
      (updateFirst p f l).find? p = some (f x)
  | a :: l, x, h, hf => by
      cases hp : p a with
      | true =>
          rw [List.find?_cons_of_pos l hp] at h
          cases h
          simp only [updateFirst, hp, if_true]
          exact List.find?_cons_of_pos l hf
      | false =>
          rw [List.find?_cons_of_neg l (by simp [hp])] at h
          simp only [updateFirst, hp, Bool.false_eq_true, if_false]
          rw [List.find?_cons_of_neg _ (by simp [hp])]
          exact find?_updateFirst_self h hf

theorem find?_updateFirst_of_ne {p q : α → Bool} {f : α → α}
    (h : ∀ x, p x = true → q x = false ∧ q (f x) = false) :
    ∀ (l : List α), (updateFirst p f l).find? q = l.find? q
  | [] => rfl
  | a :: l => by
      cases hp : p a with
      | true =>
          simp only [updateFirst, hp, if_true]
          rw [List.find?_cons_of_neg _ (by simp [(h a hp).2]),
              List.find?_cons_of_neg _ (by simp [(h a hp).1])]
      | false =>
          simp only [updateFirst, hp, Bool.false_eq_true, if_false]
          cases hq : q a with
          | true =>
              rw [List.find?_cons_of_pos _ hq, List.find?_cons_of_pos _ hq]
          | false =>
              rw [List.find?_cons_of_neg _ (by simp [hq]),
                  List.find?_cons_of_neg _ (by simp [hq])]
              exact find?_updateFirst_of_ne h l

theorem mem_updateFirst {p : α → Bool} {f : α → α} :
    ∀ {l : List α} {y : α}, y ∈ updateFirst p f l →
      y ∈ l ∨ ∃ x, x ∈ l ∧ p x = true ∧ y = f x
  | a :: l, y, h => by
      cases hp : p a with
      | true =>
          simp only [updateFirst, hp, if_true] at h
          rcases List.mem_cons.mp h with h | h
          · exact Or.inr ⟨a, List.mem_cons_self a l, hp, h⟩
          · exact Or.inl (List.mem_cons_of_mem a h)
      | false =>
          simp only [updateFirst, hp, Bool.false_eq_true, if_false] at h
          rcases List.mem_cons.mp h with h | h
          · exact Or.inl (h ▸ List.mem_cons_self a l)
          · rcases mem_updateFirst h with h' | ⟨x, hx, hpx, hy⟩
            · exact Or.inl (List.mem_cons_of_mem a h')
            · exact Or.inr ⟨x, List.mem_cons_of_mem a hx, hpx, hy⟩

theorem length_updateFirst {p : α → Bool} {f : α → α} :
    ∀ (l : List α), (updateFirst p f l).length = l.length
  | [] => rfl
  | a :: l => by
      cases hp : p a with
      | true => simp [updateFirst, hp]
      | false => simp [updateFirst, hp, length_updateFirst l]

/-! ## C2 — terminal pickup states are not absorbing -/

/-- C2 counterexample: in `completedPickupDb` the single release pickup
is in the terminal state `completed`, yet `acknowledge_release_pickup`
moves it back to `picked_up` — the claim that completed/failed/
cancelled are absorbing under acknowledge/start/complete is false. -/
theorem c2_counterexample_ack_on_completed :
    (completedPickupDb.releasePickups.find? (fun p => p.id == 1)).map
        ReleasePickup.status = some "completed" ∧
    ((acknowledge_release_pickup completedPickupDb 1 10).1.releasePickups.find?
        (fun p => p.id == 1)).map ReleasePickup.status = some "picked_up" :=
  ⟨rfl, rfl⟩

/-- C2 (amended): the lifecycle writes are unconditional — for every
pickup (release or pipeline) in any state, including the terminal
states completed/failed/cancelled, `acknowledge` sets the status to
`picked_up`, `start` sets it to `in_progress`, and `complete` sets it
to `completed`/`failed` as reported; no prior-state guard exists in any
of the six handlers. -/
theorem c2_lifecycle_overwrites_any_status (db : Db) (pid now : Nat)
    (success : Bool) (em : Option String) :
    (∀ pickup, db.releasePickups.find? (fun p => p.id == pid) = some pickup →
       ((acknowledge_release_pickup db pid now).1.releasePickups.find?
           (fun p => p.id == pid)).map ReleasePickup.status = some "picked_up" ∧
       ((start_release_execution db pid now).1.releasePickups.find?
           (fun p => p.id == pid)).map ReleasePickup.status = some "in_progress" ∧
       ((complete_release_pickup db pid success em now).1.releasePickups.find?
           (fun p => p.id == pid)).map ReleasePickup.status =
         some (if success then "completed" else "failed")) ∧
    (∀ pickup, db.pipelinePickups.find? (fun p => p.id == pid) = some pickup →
       ((acknowledge_pipeline_pickup db pid now).1.pipelinePickups.find?
           (fun p => p.id == pid)).map PipelinePickup.status = some "picked_up" ∧
       ((start_pipeline_pickup db pid now).1.pipelinePickups.find?
           (fun p => p.id == pid)).map PipelinePickup.status = some "in_progress" ∧
       ((complete_pipeline_pickup db pid success em now).1.pipelinePickups.find?
           (fun p => p.id == pid)).map PipelinePickup.status =
         some (if success then "completed" else "failed")) := by
  constructor
  · intro pickup h
    have hid : (pickup.id == pid) = true := by
      have := List.find?_some h
      simpa using this
    refine ⟨?_, ?_, ?_⟩
    · simp only [acknowledge_release_pickup, h]
      rw [find?_updateFirst_self h hid]
      rfl
    · simp only [start_release_execution, h]
      rw [find?_updateFirst_self h hid]
      rfl
    · simp only [complete_release_pickup, h]
      have hfind : (updateFirst (fun p => p.id == pid)
          (completePickupUpdate success em now) db.releasePickups).find?
          (fun p => p.id == pid) = some (completePickupUpdate success em now pickup) := by
        apply find?_updateFirst_self h
        exact hid
      rw [hfind]
      rfl
  · intro pickup h
    have hid : (pickup.id == pid) = true := by
      have := List.find?_some h
      simpa using this
    refine ⟨?_, ?_, ?_⟩
    · simp only [acknowledge_pipeline_pickup, h]
      rw [find?_updateFirst_self h hid]
      rfl
    · simp only [start_pipeline_pickup, h]
      rw [find?_updateFirst_self h hid]
      rfl
    · simp only [complete_pipeline_pickup, h]
      rw [find?_updateFirst_self h hid]
      rfl

/-- Witness for `c2_lifecycle_overwrites_any_status` at concrete
databases whose single pickup is already in the terminal state
`completed`: each lifecycle write still overwrites the status. -/
theorem c2_lifecycle_overwrites_any_status_witness :
    ((acknowledge_release_pickup completedPickupDb 1 10).1.releasePickups.find?
        (fun p => p.id == 1)).map ReleasePickup.status = some "picked_up" ∧
    ((start_release_execution completedPickupDb 1 10).1.releasePickups.find?
        (fun p => p.id == 1)).map ReleasePickup.status = some "in_progress" ∧
    ((complete_release_pickup completedPickupDb 1 true none 10).1.releasePickups.find?
        (fun p => p.id == 1)).map ReleasePickup.status =
      some (if true then "completed" else "failed") ∧
    ((acknowledge_pipeline_pickup pipelineRoundTripDb 1 10).1.pipelinePickups.find?
        (fun p => p.id == 1)).map PipelinePickup.status = some "picked_up" ∧
    ((start_pipeline_pickup pipelineRoundTripDb 1 10).1.pipelinePickups.find?
        (fun p => p.id == 1)).map PipelinePickup.status = some "in_progress" ∧
    ((complete_pipeline_pickup pipelineRoundTripDb 1 false none 10).1.pipelinePickups.find?
        (fun p => p.id == 1)).map PipelinePickup.status =
      some (if false then "completed" else "failed") := by
  have hR := (c2_lifecycle_overwrites_any_status completedPickupDb 1 10 true none).1
    donePickup rfl
  have hP := (c2_lifecycle_overwrites_any_status pipelineRoundTripDb 1 10 false none).2
    _ rfl
  exact ⟨hR.1, hR.2.1, hR.2.2, hP.1, hP.2.1, hP.2.2⟩

/-! ## C9 — acknowledge, not start, mutates the stage execution -/

/-- C9: for a release pickup whose stage row exists, `acknowledge` sets
the owning stage execution to `in_progress` stamping its `started_at`
(and the pickup to `picked_up`), while `start` leaves the
stage-execution and release-execution tables untouched and rewrites
only the status and `started_at` of pickup rows. -/
theorem c9_ack_mutates_stage_start_does_not
    (db : Db) (pid now : Nat) (pickup : ReleasePickup) (st : StageExecution)
    (hp : db.releasePickups.find? (fun p => p.id == pid) = some pickup)
    (hs : db.stageExecutions.find? (fun s => s.id == pickup.stage_execution_id) = some st) :
    ((acknowledge_release_pickup db pid now).1.stageExecutions.find?
        (fun s => s.id == pickup.stage_execution_id) =
      some { st with status := "in_progress", started_at := some now }) ∧
    ((acknowledge_release_pickup db pid now).1.releasePickups.find?
        (fun p => p.id == pid) =
      some { pickup with status := "picked_up", picked_up_at := some now }) ∧
    ((start_release_execution db pid now).1.stageExecutions = db.stageExecutions) ∧
    ((start_release_execution db pid now).1.releaseExecutions = db.releaseExecutions) ∧
    ((start_release_execution db pid now).1.releasePickups.find?
        (fun p => p.id == pid) =
      some { pickup with status := "in_progress", started_at := some now }) ∧
    (∀ q ∈ (start_release_execution db pid now).1.releasePickups,
       q ∈ db.releasePickups ∨
         ∃ x ∈ db.releasePickups,
           q = { x with status := "in_progress", started_at := some now }) := by
  have hsid : (st.id == pickup.stage_execution_id) = true := by
    have := List.find?_some hs
    simpa using this
  have hpid : (pickup.id == pid) = true := by
    have := List.find?_some hp
    simpa using this
  refine ⟨?_, ?_, ?_, ?_, ?_, ?_⟩
  · simp only [acknowledge_release_pickup, hp]
    exact find?_updateFirst_self hs hsid
  · simp only [acknowledge_release_pickup, hp]
    exact find?_updateFirst_self hp hpid
  · simp only [start_release_execution, hp]
  · simp only [start_release_execution, hp]
  · simp only [start_release_execution, hp]
    exact find?_updateFirst_self hp hpid
  · intro q hq
    simp only [start_release_execution, hp] at hq
    rcases mem_updateFirst hq with h | ⟨x, hx, _, hqx⟩
    · exact Or.inl h
    · exact Or.inr ⟨x, hx, hqx⟩

/-- Witness for `c9_ack_mutates_stage_start_does_not` on the
single-stage scenario database. -/
theorem c9_ack_mutates_stage_start_does_not_witness :
    (acknowledge_release_pickup singleStageDb 1 7).1.stageExecutions.find?
        (fun s => s.id == pendingPickup.stage_execution_id) =
      some { pendingStageExec with status := "in_progress", started_at := some 7 } :=
  (c9_ack_mutates_stage_start_does_not singleStageDb 1 7 pendingPickup
    pendingStageExec rfl rfl).1

/-! ## C6 — approve gate -/

/-- C6: `approve_stage` fails (400 "Stage is not pending approval" —
the spec taxonomy's Conflict case) exactly when the stage's
`approval_status` is not `pending`, leaving the database unchanged; on
success it records approver/timestamp/comments, sets
`approval_status = approved` and `status = pending`, and appends the
deferred pending `ReleasePickup` bound to the stage's resolved agent
with the owning release stage's `order_index` as priority. -/
theorem c6_approve_stage_spec
    (db : Db) (sid : Nat) (req : ApprovalRequest) (now : Nat) (st : StageExecution)
    (hs : db.stageExecutions.find? (fun s => s.id == sid) = some st) :
    (st.approval_status ≠ "pending" →
       approve_stage db sid req now =
         (db, .error ⟨400, "Stage is not pending approval"⟩)) ∧
    (st.approval_status = "pending" →
       ((approve_stage db sid req now).2 = .ok () ∧
        (approve_stage db sid req now).1.stageExecutions.find? (fun s => s.id == sid) =
          some { st with approval_status := "approved",
                         approved_by := some req.approved_by,
                         approved_at := some now,
                         approval_comments := req.comments,
                         status := "pending" } ∧
        (∀ aid agent, st.agent_id = some aid →
           db.agents.find? (fun a => a.id == aid) = some agent →
           (approve_stage db sid req now).1.releasePickups =
             db.releasePickups ++
               [{ id := db.nextReleasePickupId
                  release_execution_id := st.release_execution_id
                  stage_execution_id := st.id
                  agent_id := agent.id
                  agent_uuid := agent.uuid
                  agent_name := agent.name
                  status := "pending"
                  priority := match db.releaseStages.find?
                      (fun rs => rs.id == st.release_stage_id) with
                    | some rs => rs.order_index
                    | none => 0
                  created_at := now
                  picked_up_at := none
                  started_at := none
                  completed_at := none
                  error_message := none }]))) := by
  have hsid : (st.id == sid) = true := by
    have := List.find?_some hs
    simpa using this
  constructor
  · intro h
    have hb : (st.approval_status != "pending") = true := by
      simpa [bne_iff_ne] using h
    simp only [approve_stage, hs, hb, if_true]
  · intro h
    have hb : (st.approval_status != "pending") = false := by
      simp [bne, h]
    refine ⟨?_, ?_, ?_⟩
    · simp only [approve_stage, hs, hb, Bool.false_eq_true, if_false]
      split
      · rfl
      · split <;> rfl
    · simp only [approve_stage, hs, hb, Bool.false_eq_true, if_false]
      split
      · apply find?_updateFirst_self hs
        exact hsid
      · split <;>
          (apply find?_updateFirst_self hs
           exact hsid)
    · intro aid agent haid hagent
      simp only [approve_stage, hs, hb, Bool.false_eq_true, if_false, haid, hagent]

/-- Witness for `c6_approve_stage_spec` on the awaiting-approval
scenario: the call succeeds and appends exactly the deferred pickup. -/
theorem c6_approve_stage_spec_witness :
    (approve_stage awaitingApprovalDb 1 ⟨"alice", some "ok"⟩ 9).2 = .ok () ∧
    (approve_stage awaitingApprovalDb 1 ⟨"alice", some "ok"⟩ 9).1.releasePickups =
      awaitingApprovalDb.releasePickups ++
        [{ id := 2
           release_execution_id := 1
           stage_execution_id := 1
           agent_id := 1
           agent_uuid := "uuid-1"
           agent_name := "agent-one"
           status := "pending"
           priority := 4
           created_at := 9
           picked_up_at := none
           started_at := none
           completed_at := none
           error_message := none }] := by
  have h := (c6_approve_stage_spec awaitingApprovalDb 1 ⟨"alice", some "ok"⟩ 9
    awaitingStageExec rfl).2 rfl
  exact ⟨h.1, (h.2.2 1 agentOne rfl rfl).trans rfl⟩

/-! ## C7 — reject short-circuits the release -/

/-- C7: `reject_stage` fails (400 "Stage is not pending approval")
exactly when `approval_status` is not `pending`, changing nothing; on
success it sets the stage to `rejected`/`cancelled`, sets the parent
release execution to `failed` with `completed_at = now` — for any
database, hence regardless of the other stages' states — and creates no
pickup. -/
theorem c7_reject_stage_spec
    (db : Db) (sid : Nat) (req : ApprovalRequest) (now : Nat)
    (st : StageExecution) (re : ReleaseExecution)
    (hs : db.stageExecutions.find? (fun s => s.id == sid) = some st)
    (hr : db.releaseExecutions.find? (fun r => r.id == st.release_execution_id) = some re) :
    (st.approval_status ≠ "pending" →
       reject_stage db sid req now =
         (db, .error ⟨400, "Stage is not pending approval"⟩)) ∧
    (st.approval_status = "pending" →
       ((reject_stage db sid req now).2 = .ok () ∧
        (reject_stage db sid req now).1.stageExecutions.find? (fun s => s.id == sid) =
          some { st with approval_status := "rejected",
                         approved_by := some req.approved_by,
                         approved_at := some now,
                         approval_comments := req.comments,
                         status := "cancelled" } ∧
        (reject_stage db sid req now).1.releaseExecutions.find?
            (fun r => r.id == st.release_execution_id) =
          some { re with status := "failed", completed_at := some now } ∧
        (reject_stage db sid req now).1.releasePickups = db.releasePickups)) := by
  have hsid : (st.id == sid) = true := by
    have := List.find?_some hs
    simpa using this
  have hrid : (re.id == st.release_execution_id) = true := by
    have := List.find?_some hr
    simpa using this
  constructor
  · intro h
    have hb : (st.approval_status != "pending") = true := by
      simpa [bne_iff_ne] using h
    simp only [reject_stage, hs, hb, if_true]
  · intro h
    have hb : (st.approval_status != "pending") = false := by
      simp [bne, h]
    refine ⟨?_, ?_, ?_, ?_⟩
    · simp only [reject_stage, hs, hb, Bool.false_eq_true, if_false]
    · simp only [reject_stage, hs, hb, Bool.false_eq_true, if_false]
      apply find?_updateFirst_self hs
      exact hsid
    · simp only [reject_stage, hs, hb, Bool.false_eq_true, if_false]
      apply find?_updateFirst_self hr
      exact hrid
    · simp only [reject_stage, hs, hb, Bool.false_eq_true, if_false]

/-- Witness for `c7_reject_stage_spec`: rejecting the awaiting stage
cancels it, fails the release, and leaves the pickup table empty. -/
theorem c7_reject_stage_spec_witness :
    (reject_stage awaitingApprovalDb 1 ⟨"bob", none⟩ 9).2 = .ok () ∧
    (reject_stage awaitingApprovalDb 1 ⟨"bob", none⟩ 9).1.releaseExecutions.find?
        (fun r => r.id == 1) =
      some { runningReleaseExec with status := "failed", completed_at := some 9 } ∧
    (reject_stage awaitingApprovalDb 1 ⟨"bob", none⟩ 9).1.releasePickups = [] := by
  have h := (c7_reject_stage_spec awaitingApprovalDb 1 ⟨"bob", none⟩ 9
    awaitingStageExec runningReleaseExec rfl rfl).2 rfl
  exact ⟨h.1, h.2.2.1, h.2.2.2⟩

/-! ## Field lemmas for the completion update functions -/

theorem completePickupUpdate_id (success : Bool) (em : Option String)
    (now : Nat) (p : ReleasePickup) :
    (completePickupUpdate success em now p).id = p.id := by
  unfold completePickupUpdate
  rfl

theorem completePickupUpdate_sid (success : Bool) (em : Option String)
    (now : Nat) (p : ReleasePickup) :
    (completePickupUpdate success em now p).stage_execution_id =
      p.stage_execution_id := by
  unfold completePickupUpdate
  rfl

theorem completeStageUpdate_id (success : Bool) (now : Nat) (s : StageExecution) :
    (completeStageUpdate success now s).id = s.id := by
  unfold completeStageUpdate
  cases s.started_at <;> rfl

theorem completeStageUpdate_status (success : Bool) (now : Nat) (s : StageExecution) :
    (completeStageUpdate success now s).status =
      (if success then "succeeded" else "failed") := by
  unfold completeStageUpdate
  cases s.started_at <;> rfl

theorem completeStageUpdate_completed_at (success : Bool) (now : Nat)
    (s : StageExecution) :
    (completeStageUpdate success now s).completed_at = some now := by
  unfold completeStageUpdate
  cases s.started_at <;> rfl

theorem completeStageUpdate_rei (success : Bool) (now : Nat) (s : StageExecution) :
    (completeStageUpdate success now s).release_execution_id =
      s.release_execution_id := by
  unfold completeStageUpdate
  cases s.started_at <;> rfl

theorem completeStageUpdate_duration (success : Bool) (now t : Nat)
    (s : StageExecution) (h : s.started_at = some t) :
    (completeStageUpdate success now s).duration_seconds =
      some ((now : Int) - (t : Int)) := by
  unfold completeStageUpdate
  rw [h]

theorem completeReleaseUpdate_id (af : Bool) (now : Nat) (r : ReleaseExecution) :
    (completeReleaseUpdate af now r).id = r.id := by
  unfold completeReleaseUpdate
  cases r.started_at <;> rfl

theorem completeReleaseUpdate_status (af : Bool) (now : Nat) (r : ReleaseExecution) :
    (completeReleaseUpdate af now r).status =
      (if af then "failed" else "succeeded") := by
  unfold completeReleaseUpdate
  cases r.started_at <;> rfl

theorem completeReleaseUpdate_completed_at (af : Bool) (now : Nat)
    (r : ReleaseExecution) :
    (completeReleaseUpdate af now r).completed_at = some now := by
  unfold completeReleaseUpdate
  cases r.started_at <;> rfl

theorem completeReleaseUpdate_duration (af : Bool) (now t : Nat)
    (r : ReleaseExecution) (h : r.started_at = some t) :
    (completeReleaseUpdate af now r).duration_seconds =
      some ((now : Int) - (t : Int)) := by
  unfold completeReleaseUpdate
  rw [h]

/-! ## C1 — release-level aggregation on pickup completion -/

/-- C1: when a release pickup whose stage and release-execution rows
exist is completed, the owning stage is set to the terminal status
`succeeded`/`failed` with `completed_at = now`; then with `siblings`
the re-scanned stage rows of the same release execution, if every
sibling has a terminal status (succeeded/failed/cancelled/skipped) the
parent becomes `failed` exactly when some sibling is `failed` and
`succeeded` otherwise, with `completed_at = now` and
`duration_seconds = now - started_at`; if some sibling is non-terminal
the parent row is unchanged.  Quantifying over the whole database
covers any number of stages and any completion order. -/
theorem c1_complete_release_aggregation
    (db : Db) (pid : Nat) (success : Bool) (em : Option String) (now : Nat)
    (pickup : ReleasePickup) (st : StageExecution) (re : ReleaseExecution)
    (hp : db.releasePickups.find? (fun p => p.id == pid) = some pickup)
    (hs : db.stageExecutions.find? (fun s => s.id == pickup.stage_execution_id) = some st)
    (hr : db.releaseExecutions.find? (fun r => r.id == pickup.release_execution_id) = some re) :
    (∃ st', (complete_release_pickup db pid success em now).1.stageExecutions.find?
        (fun s => s.id == pickup.stage_execution_id) = some st' ∧
       st'.status = (if success then "succeeded" else "failed") ∧
       st'.completed_at = some now) ∧
    (let siblings := (complete_release_pickup db pid success em now).1.stageExecutions.filter
        (fun s => s.release_execution_id == re.id)
     (siblings.all (fun s => stageTerminal s.status) = true →
        ∃ re', (complete_release_pickup db pid success em now).1.releaseExecutions.find?
            (fun r => r.id == pickup.release_execution_id) = some re' ∧
          re'.status = (if siblings.any (fun s => s.status == "failed")
            then "failed" else "succeeded") ∧
          re'.completed_at = some now ∧
          (∀ t, re.started_at = some t →
             re'.duration_seconds = some ((now : Int) - (t : Int)))) ∧
     (siblings.all (fun s => stageTerminal s.status) = false →
        (complete_release_pickup db pid success em now).1.releaseExecutions.find?
            (fun r => r.id == pickup.release_execution_id) = some re)) := by
  have hsid : (st.id == pickup.stage_execution_id) = true := by
    have := List.find?_some hs
    simpa using this
  have hrid : (re.id == pickup.release_execution_id) = true := by
    have := List.find?_some hr
    simpa using this
  refine ⟨?_, ?_, ?_⟩
  · refine ⟨completeStageUpdate success now st, ?_, ?_, ?_⟩
    · simp only [complete_release_pickup, hp]
      apply find?_updateFirst_self hs
      rw [completeStageUpdate_id]
      exact hsid
    · exact completeStageUpdate_status success now st
    · exact completeStageUpdate_completed_at success now st
  · intro hall
    simp only [complete_release_pickup, hp, hr] at hall ⊢
    rw [hall]
    simp only [eq_self_iff_true, if_true]
    refine ⟨completeReleaseUpdate
      (((updateFirst (fun s => s.id == pickup.stage_execution_id)
          (completeStageUpdate success now) db.stageExecutions).filter
        (fun s => s.release_execution_id == re.id)).any
          (fun s => s.status == "failed")) now re, ?_, ?_, ?_, ?_⟩
    · apply find?_updateFirst_self hr
      rw [completeReleaseUpdate_id]
      exact hrid
    · exact completeReleaseUpdate_status _ now re
    · exact completeReleaseUpdate_completed_at _ now re
    · intro t ht
      exact completeReleaseUpdate_duration _ now t re ht
  · intro hnall
    simp only [complete_release_pickup, hp, hr] at hnall ⊢
    rw [hnall]
    simp only [Bool.false_eq_true, if_false]
    exact hr

/-- Witness for `c1_complete_release_aggregation`: completing the only
stage of `singleStageDb` succeeds the stage and finalizes the parent
release execution as `succeeded` with duration 9. -/
theorem c1_complete_release_aggregation_witness :
    ∃ re', (complete_release_pickup singleStageDb 1 true none 9).1.releaseExecutions.find?
        (fun r => r.id == 1) = some re' ∧
      re'.status = "succeeded" ∧ re'.completed_at = some 9 ∧
      re'.duration_seconds = some 9 := by
  have h := c1_complete_release_aggregation singleStageDb 1 true none 9
    pendingPickup pendingStageExec runningReleaseExec rfl rfl rfl
  obtain ⟨re', h1, h2, h3, h4⟩ := h.2.1 (by decide)
  refine ⟨re', h1, ?_, h3, ?_⟩
  · rw [h2]
    decide
  · have := h4 0 rfl
    rw [this]
    rfl

theorem completeStageUpdate_started_at (success : Bool) (now : Nat)
    (s : StageExecution) :
    (completeStageUpdate success now s).started_at = s.started_at := by
  unfold completeStageUpdate
  cases s.started_at <;> rfl

/-! ## C5 — the enqueue/poll/ack/start/complete round trip -/

/-- C5 counterexample: after run → acknowledge → start →
complete(success) on a pipeline, the pickup is `completed` but the
owning `PipelineExecution`'s status is the literal `"success"`, not
`"succeeded"` as the claim states. -/
theorem c5_counterexample_pipeline_status :
    pipelineRoundTripDb.pipelinePickups.map PipelinePickup.status = ["completed"] ∧
    pipelineRoundTripDb.pipelineExecutions.map PipelineExecution.status = ["success"] ∧
    "success" ≠ "succeeded" :=
  ⟨rfl, rfl, by decide⟩

/-- C5 (amended): the round trip acknowledge → start →
complete(success=true) on an enqueued pickup leaves the pickup
`completed` with `completed_at` set; the owning StageExecution becomes
`succeeded` (release path) with `completed_at` set and a recorded
duration `completed_at - started_at`, the stage's `started_at` being
the acknowledge time; the owning PipelineExecution becomes the code's
literal `success` with `completed_at` set and `started_at` untouched —
its duration assignment targets an unmapped attribute that is dropped
at commit, so no pipeline duration is recorded. -/
theorem c5_round_trip_amended
    (db : Db) (pidR pidP t1 t2 t3 : Nat)
    (pickup : ReleasePickup) (st : StageExecution)
    (pu : PipelinePickup) (ex : PipelineExecution)
    (hp : db.releasePickups.find? (fun p => p.id == pidR) = some pickup)
    (hs : db.stageExecutions.find? (fun s => s.id == pickup.stage_execution_id) = some st)
    (hq : db.pipelinePickups.find? (fun p => p.id == pidP) = some pu)
    (he : db.pipelineExecutions.find? (fun e => e.id == pu.pipeline_execution_id) = some ex) :
    (let db3 := (complete_release_pickup
        (start_release_execution (acknowledge_release_pickup db pidR t1).1 pidR t2).1
        pidR true none t3).1
     (db3.releasePickups.find? (fun p => p.id == pidR)).map ReleasePickup.status =
        some "completed" ∧
     (db3.releasePickups.find? (fun p => p.id == pidR)).map ReleasePickup.completed_at =
        some (some t3) ∧
     (∃ st', db3.stageExecutions.find? (fun s => s.id == pickup.stage_execution_id) =
          some st' ∧
        st'.status = "succeeded" ∧ st'.completed_at = some t3 ∧
        st'.started_at = some t1 ∧
        st'.duration_seconds = some ((t3 : Int) - (t1 : Int)))) ∧
    (let db3 := (complete_pipeline_pickup
        (start_pipeline_pickup (acknowledge_pipeline_pickup db pidP t1).1 pidP t2).1
        pidP true none t3).1
     (db3.pipelinePickups.find? (fun p => p.id == pidP)).map PipelinePickup.status =
        some "completed" ∧
     (∃ ex', db3.pipelineExecutions.find? (fun e => e.id == pu.pipeline_execution_id) =
          some ex' ∧
        ex'.status = "success" ∧ ex'.completed_at = some t3 ∧
        ex'.started_at = ex.started_at)) := by
  have hpidR : (pickup.id == pidR) = true := by
    have := List.find?_some hp
    simpa using this
  have hsid : (st.id == pickup.stage_execution_id) = true := by
    have := List.find?_some hs
    simpa using this
  have hpidP : (pu.id == pidP) = true := by
    have := List.find?_some hq
    simpa using this
  have heid : (ex.id == pu.pipeline_execution_id) = true := by
    have := List.find?_some he
    simpa using this
  constructor
  · -- release path
    have e1 : (acknowledge_release_pickup db pidR t1).1.releasePickups.find?
        (fun p => p.id == pidR) =
        some { pickup with status := "picked_up", picked_up_at := some t1 } := by
      simp only [acknowledge_release_pickup, hp]
      apply find?_updateFirst_self hp
      exact hpidR
    have e2 : (acknowledge_release_pickup db pidR t1).1.stageExecutions.find?
        (fun s => s.id == pickup.stage_execution_id) =
        some { st with status := "in_progress", started_at := some t1 } := by
      simp only [acknowledge_release_pickup, hp]
      apply find?_updateFirst_self hs
      exact hsid
    have e3 : (start_release_execution (acknowledge_release_pickup db pidR t1).1
          pidR t2).1.releasePickups.find? (fun p => p.id == pidR) =
        some { pickup with status := "in_progress", picked_up_at := some t1,
                           started_at := some t2 } := by
      simp only [start_release_execution, e1]
      apply find?_updateFirst_self e1
      exact hpidR
    have e4 : (start_release_execution (acknowledge_release_pickup db pidR t1).1
          pidR t2).1.stageExecutions =
        (acknowledge_release_pickup db pidR t1).1.stageExecutions := by
      simp only [start_release_execution, e1]
    have e5 : (complete_release_pickup
          (start_release_execution (acknowledge_release_pickup db pidR t1).1 pidR t2).1
          pidR true none t3).1.stageExecutions.find?
        (fun s => s.id == pickup.stage_execution_id) =
        some (completeStageUpdate true t3
          { st with status := "in_progress", started_at := some t1 }) := by
      simp only [complete_release_pickup, e3]
      rw [e4]
      apply find?_updateFirst_self e2
      rw [completeStageUpdate_id]
      exact hsid
    have e6 : (complete_release_pickup
          (start_release_execution (acknowledge_release_pickup db pidR t1).1 pidR t2).1
          pidR true none t3).1.releasePickups.find? (fun p => p.id == pidR) =
        some (completePickupUpdate true none t3
          { pickup with status := "in_progress", picked_up_at := some t1,
                        started_at := some t2 }) := by
      simp only [complete_release_pickup, e3]
      apply find?_updateFirst_self e3
      rw [completePickupUpdate_id]
      exact hpidR
    refine ⟨?_, ?_, ?_⟩
    · rw [e6]
      rfl
    · rw [e6]
      rfl
    · refine ⟨_, e5, ?_, ?_, ?_, ?_⟩
      · exact completeStageUpdate_status true t3 _
      · exact completeStageUpdate_completed_at true t3 _
      · rw [completeStageUpdate_started_at]
      · exact completeStageUpdate_duration true t3 t1 _ rfl
  · -- pipeline path
    have f1 : (acknowledge_pipeline_pickup db pidP t1).1.pipelineExecutions =
        db.pipelineExecutions := by
      simp only [acknowledge_pipeline_pickup, hq]
    have f2 : (acknowledge_pipeline_pickup db pidP t1).1.pipelinePickups.find?
        (fun p => p.id == pidP) =
        some { pu with status := "picked_up", picked_up_at := some t1 } := by
      simp only [acknowledge_pipeline_pickup, hq]
      apply find?_updateFirst_self hq
      exact hpidP
    have f3 : (start_pipeline_pickup (acknowledge_pipeline_pickup db pidP t1).1
          pidP t2).1.pipelinePickups.find? (fun p => p.id == pidP) =
        some { pu with status := "in_progress", picked_up_at := some t1,
                       started_at := some t2 } := by
      simp only [start_pipeline_pickup, f2]
      apply find?_updateFirst_self f2
      exact hpidP
    have f4 : (start_pipeline_pickup (acknowledge_pipeline_pickup db pidP t1).1
          pidP t2).1.pipelineExecutions.find?
        (fun e => e.id == pu.pipeline_execution_id) =
        some { ex with status := "running" } := by
      simp only [start_pipeline_pickup, f2]
      rw [f1]
      apply find?_updateFirst_self he
      exact heid
    have f5 : (complete_pipeline_pickup
          (start_pipeline_pickup (acknowledge_pipeline_pickup db pidP t1).1 pidP t2).1
          pidP true none t3).1.pipelineExecutions.find?
        (fun e => e.id == pu.pipeline_execution_id) =
        some { ex with status := "success", completed_at := some t3 } := by
      simp only [complete_pipeline_pickup, f3]
      apply find?_updateFirst_self f4
      exact heid
    have f6 : (complete_pipeline_pickup
          (start_pipeline_pickup (acknowledge_pipeline_pickup db pidP t1).1 pidP t2).1
          pidP true none t3).1.pipelinePickups.find? (fun p => p.id == pidP) =
        some { pu with status := "completed", picked_up_at := some t1,
                       started_at := some t2, completed_at := some t3,
                       error_message := none } := by
      simp only [complete_pipeline_pickup, f3]
      apply find?_updateFirst_self f3
      exact hpidP
    refine ⟨?_, ?_⟩
    · rw [f6]
      rfl
    · exact ⟨_, f5, rfl, rfl, rfl⟩

/-- Witness for `c5_round_trip_amended` on `mixedDb` with times
1, 2, 4: the stage ends `succeeded` with duration 3, the pipeline
execution ends `success` with duration 3. -/
theorem c5_round_trip_amended_witness :
    (∃ st', (complete_release_pickup
        (start_release_execution (acknowledge_release_pickup mixedDb 1 1).1 1 2).1
        1 true none 4).1.stageExecutions.find? (fun s => s.id == 1) = some st' ∧
       st'.status = "succeeded" ∧ st'.completed_at = some 4 ∧
       st'.started_at = some 1 ∧
       st'.duration_seconds = some ((4 : Int) - (1 : Int))) ∧
    (∃ ex', (complete_pipeline_pickup
        (start_pipeline_pickup (acknowledge_pipeline_pickup mixedDb 1 1).1 1 2).1
        1 true none 4).1.pipelineExecutions.find? (fun e => e.id == 1) = some ex' ∧
       ex'.status = "success" ∧ ex'.completed_at = some 4 ∧
       ex'.started_at = runningPipeExec.started_at) := by
  have h := c5_round_trip_amended mixedDb 1 1 1 2 4
    pendingPickup pendingStageExec pendingPipePickup runningPipeExec rfl rfl rfl rfl
  exact ⟨h.1.2.2, h.2.2⟩

/-! ## C3 — poll returns exactly the caller's live pickups, sorted -/

/-- C3: for a registered agent uuid, both poll operations return
exactly the pickups whose `agent_uuid` matches and whose status is
`pending` or `picked_up` (a permutation of the filtered table, so never
another agent's pickup and never a terminal one), sorted by ascending
priority with ties by ascending `created_at`. -/
theorem c3_poll_exact_and_sorted
    (db : Db) (u : String) (ag : Agent)
    (ha : db.agents.find? (fun a => a.uuid == u) = some ag) :
    (∃ l, get_pending_releases db u = .ok l ∧
       l.Perm (db.releasePickups.filter (releasePickupVisible u)) ∧
       l.Pairwise releasePickupOrder ∧
       ∀ p, p ∈ l ↔ (p ∈ db.releasePickups ∧ p.agent_uuid = u ∧
         (p.status = "pending" ∨ p.status = "picked_up"))) ∧
    (∃ l, get_pending_pipelines db u = .ok l ∧
       l.Perm (db.pipelinePickups.filter (pipelinePickupVisible u)) ∧
       l.Pairwise pipelinePickupOrder ∧
       ∀ p, p ∈ l ↔ (p ∈ db.pipelinePickups ∧ p.agent_uuid = u ∧
         (p.status = "pending" ∨ p.status = "picked_up"))) := by
  constructor
  · refine ⟨List.insertionSort releasePickupOrder
      (db.releasePickups.filter (releasePickupVisible u)), ?_, ?_, ?_, ?_⟩
    · simp only [get_pending_releases, ha]
    · exact List.perm_insertionSort releasePickupOrder _
    · exact List.sorted_insertionSort releasePickupOrder _
    · intro p
      rw [(List.perm_insertionSort releasePickupOrder _).mem_iff, List.mem_filter]
      constructor
      · rintro ⟨hmem, hvis⟩
        refine ⟨hmem, ?_⟩
        simpa [releasePickupVisible] using hvis
      · rintro ⟨hmem, hvis⟩
        refine ⟨hmem, ?_⟩
        simpa [releasePickupVisible] using hvis
  · refine ⟨List.insertionSort pipelinePickupOrder
      (db.pipelinePickups.filter (pipelinePickupVisible u)), ?_, ?_, ?_, ?_⟩
    · simp only [get_pending_pipelines, ha]
    · exact List.perm_insertionSort pipelinePickupOrder _
    · exact List.sorted_insertionSort pipelinePickupOrder _
    · intro p
      rw [(List.perm_insertionSort pipelinePickupOrder _).mem_iff, List.mem_filter]
      constructor
      · rintro ⟨hmem, hvis⟩
        refine ⟨hmem, ?_⟩
        simpa [pipelinePickupVisible] using hvis
      · rintro ⟨hmem, hvis⟩
        refine ⟨hmem, ?_⟩
        simpa [pipelinePickupVisible] using hvis

/-- Witness for `c3_poll_exact_and_sorted` on `mixedDb` for agent
`uuid-1`. -/
theorem c3_poll_exact_and_sorted_witness :
    (∃ l, get_pending_releases mixedDb "uuid-1" = .ok l ∧
       l.Perm (mixedDb.releasePickups.filter (releasePickupVisible "uuid-1")) ∧
       l.Pairwise releasePickupOrder ∧
       ∀ p, p ∈ l ↔ (p ∈ mixedDb.releasePickups ∧ p.agent_uuid = "uuid-1" ∧
         (p.status = "pending" ∨ p.status = "picked_up"))) ∧
    (∃ l, get_pending_pipelines mixedDb "uuid-1" = .ok l ∧
       l.Perm (mixedDb.pipelinePickups.filter (pipelinePickupVisible "uuid-1")) ∧
       l.Pairwise pipelinePickupOrder ∧
       ∀ p, p ∈ l ↔ (p ∈ mixedDb.pipelinePickups ∧ p.agent_uuid = "uuid-1" ∧
         (p.status = "pending" ∨ p.status = "picked_up"))) :=
  c3_poll_exact_and_sorted mixedDb "uuid-1" agentOne rfl

/-! ## Equation lemmas for `deploy_release` -/

theorem deploy_release_eq_notfound {db : Db} {rid : Nat} {req : DeployReleaseRequest}
    {nowT : Nat} (h : db.releases.find? (fun r => r.id == rid) = none) :
    deploy_release db rid req nowT = (db, .error ⟨404, "Release not found"⟩) := by
  simp only [deploy_release, h]

theorem deploy_release_eq_nostages {db : Db} {rid : Nat} {req : DeployReleaseRequest}
    {nowT : Nat} {rel : Release}
    (h : db.releases.find? (fun r => r.id == rid) = some rel)
    (he : (List.insertionSort stageOrder
      (db.releaseStages.filter (fun s => s.release_id == rid))).isEmpty = true) :
    deploy_release db rid req nowT =
      (db, .error ⟨400, "Release has no stages configured"⟩) := by
  simp only [deploy_release, h, he, if_true]

theorem deploy_release_eq_agent_err {db : Db} {rid : Nat} {req : DeployReleaseRequest}
    {nowT : Nat} {rel : Release} {e : HTTPError}
    (h : db.releases.find? (fun r => r.id == rid) = some rel)
    (he : (List.insertionSort stageOrder
      (db.releaseStages.filter (fun s => s.release_id == rid))).isEmpty = false)
    (ha : resolveRequestAgent db req = .error e) :
    deploy_release db rid req nowT = (db, .error e) := by
  simp only [deploy_release, h, he, Bool.false_eq_true, if_false, ha]

theorem deploy_release_eq_ok {db : Db} {rid : Nat} {req : DeployReleaseRequest}
    {nowT : Nat} {rel : Release} {reqAgent : Option Agent}
    (h : db.releases.find? (fun r => r.id == rid) = some rel)
    (he : (List.insertionSort stageOrder
      (db.releaseStages.filter (fun s => s.release_id == rid))).isEmpty = false)
    (ha : resolveRequestAgent db req = .ok reqAgent) :
    deploy_release db rid req nowT =
      ({ db with
          releaseExecutions := db.releaseExecutions ++
            [{ id := db.nextReleaseExecutionId
               release_id := rid
               release_number := "Release-" ++ toString
                 ((db.releaseExecutions.filter (fun e => e.release_id == rid)).length + 1)
               triggered_by := some req.triggered_by
               status := "in_progress"
               artifact_version := req.artifact_version
               started_at := some nowT
               completed_at := none
               duration_seconds := none }]
          releaseParams := db.releaseParams ++ req.parameters.map
            (fun nv => ReleaseExecutionParameter.mk db.nextReleaseExecutionId nv.1 nv.2)
          stageExecutions := db.stageExecutions ++
            (deployStages db db.nextReleaseExecutionId reqAgent nowT
              (List.insertionSort stageOrder
                (db.releaseStages.filter (fun s => s.release_id == rid)))
              db.nextStageExecutionId db.nextReleasePickupId).1
          releasePickups := db.releasePickups ++
            (deployStages db db.nextReleaseExecutionId reqAgent nowT
              (List.insertionSort stageOrder
                (db.releaseStages.filter (fun s => s.release_id == rid)))
              db.nextStageExecutionId db.nextReleasePickupId).2
          nextReleaseExecutionId := db.nextReleaseExecutionId + 1
          nextStageExecutionId := db.nextStageExecutionId +
            (deployStages db db.nextReleaseExecutionId reqAgent nowT
              (List.insertionSort stageOrder
                (db.releaseStages.filter (fun s => s.release_id == rid)))
              db.nextStageExecutionId db.nextReleasePickupId).1.length
          nextReleasePickupId := db.nextReleasePickupId +
            (deployStages db db.nextReleaseExecutionId reqAgent nowT
              (List.insertionSort stageOrder
                (db.releaseStages.filter (fun s => s.release_id == rid)))
              db.nextStageExecutionId db.nextReleasePickupId).2.length },
       .ok db.nextReleaseExecutionId) := by
  simp only [deploy_release, h, he, Bool.false_eq_true, if_false, ha]

/-! ## Shape lemmas for the fan-out loop -/

theorem deployStages_length (db : Db) (reId : Nat) (ra : Option Agent) (nowT : Nat) :
    ∀ (ss : List ReleaseStage) (nse npu : Nat),
      (deployStages db reId ra nowT ss nse npu).1.length = ss.length
  | [], _, _ => rfl
  | stage :: rest, nse, npu => by
      simp only [deployStages]
      split <;>
        simp [deployStages_length db reId ra nowT rest]

theorem deployStages_pu_lb (db : Db) (reId : Nat) (ra : Option Agent) (nowT : Nat) :
    ∀ (ss : List ReleaseStage) (nse npu : Nat),
      ∀ pu ∈ (deployStages db reId ra nowT ss nse npu).2,
        nse ≤ pu.stage_execution_id
  | [], _, _ => by
      intro pu hpu
      simp [deployStages] at hpu
  | stage :: rest, nse, npu => by
      intro pu hpu
      simp only [deployStages] at hpu
      split at hpu
      · rcases List.mem_cons.mp hpu with h | h
        · subst h
          exact Nat.le_refl nse
        · have := deployStages_pu_lb db reId ra nowT rest (nse + 1) (npu + 1) pu h
          omega
      · have := deployStages_pu_lb db reId ra nowT rest (nse + 1) npu pu hpu
        omega

theorem deployStages_se_ids (db : Db) (reId : Nat) (ra : Option Agent) (nowT : Nat) :
    ∀ (ss : List ReleaseStage) (nse npu j : Nat) (se : StageExecution),
      (deployStages db reId ra nowT ss nse npu).1.get? j = some se →
      se.id = nse + j
  | [], _, _, j, se => by
      intro h
      simp [deployStages] at h
  | stage :: rest, nse, npu, j, se => by
      intro h
      rcases hA : resolveStageAgent db ra stage with _ | ag <;>
        cases hB : stageRequiresApproval db stage <;>
          simp only [deployStages, hA, hB] at h <;>
            (cases j with
             | zero =>
                 simp only [List.get?_cons_zero, Option.some.injEq] at h
                 subst h
                 simp
             | succ k =>
                 simp only [List.get?_cons_succ] at h
                 first
                 | exact (deployStages_se_ids db reId ra nowT rest (nse + 1) npu
                     k se h).trans (by omega)
                 | exact (deployStages_se_ids db reId ra nowT rest (nse + 1) (npu + 1)
                     k se h).trans (by omega))

theorem deployStages_se_lb (db : Db) (reId : Nat) (ra : Option Agent) (nowT : Nat)
    (ss : List ReleaseStage) (nse npu : Nat) :
    ∀ se ∈ (deployStages db reId ra nowT ss nse npu).1, nse ≤ se.id := by
  intro se hse
  obtain ⟨n, hget⟩ := List.mem_iff_get?.mp hse
  have h1 := deployStages_se_ids db reId ra nowT ss nse npu n se hget
  omega

/-! ## C8 — the release trigger fan-out is all-or-nothing -/

/-- C8: every failing `deploy_release` (unknown release, no stages,
unknown request agent) commits nothing — the database is returned
unchanged — while every successful one commits the full fan-out in one
step: the new `ReleaseExecution`, one `StageExecution` per stage, the
execution parameters and the immediate pickups. -/
theorem c8_deploy_release_atomic
    (db : Db) (rid : Nat) (req : DeployReleaseRequest) (nowT : Nat) :
    (∀ e, (deploy_release db rid req nowT).2 = .error e →
       (deploy_release db rid req nowT).1 = db) ∧
    (∀ reId, (deploy_release db rid req nowT).2 = .ok reId →
       reId = db.nextReleaseExecutionId ∧
       ∃ re newSEs newPUs,
         (deploy_release db rid req nowT).1.releaseExecutions =
           db.releaseExecutions ++ [re] ∧
         (deploy_release db rid req nowT).1.stageExecutions =
           db.stageExecutions ++ newSEs ∧
         (deploy_release db rid req nowT).1.releasePickups =
           db.releasePickups ++ newPUs ∧
         (deploy_release db rid req nowT).1.releaseParams =
           db.releaseParams ++ req.parameters.map
             (fun nv => ReleaseExecutionParameter.mk db.nextReleaseExecutionId nv.1 nv.2) ∧
         newSEs.length = (List.insertionSort stageOrder
           (db.releaseStages.filter (fun s => s.release_id == rid))).length ∧
         newSEs ≠ []) := by
  constructor
  · intro e h
    rcases hfr : db.releases.find? (fun r => r.id == rid) with _ | rel
    · rw [deploy_release_eq_notfound hfr]
    · cases hemp : (List.insertionSort stageOrder
          (db.releaseStages.filter (fun s => s.release_id == rid))).isEmpty with
      | true => rw [deploy_release_eq_nostages hfr hemp]
      | false =>
          rcases hag : resolveRequestAgent db req with e' | ra
          · rw [deploy_release_eq_agent_err hfr hemp hag]
          · rw [deploy_release_eq_ok hfr hemp hag] at h
            simp at h
  · intro reId h
    rcases hfr : db.releases.find? (fun r => r.id == rid) with _ | rel
    · rw [deploy_release_eq_notfound hfr] at h
      simp at h
    · cases hemp : (List.insertionSort stageOrder
          (db.releaseStages.filter (fun s => s.release_id == rid))).isEmpty with
      | true =>
          rw [deploy_release_eq_nostages hfr hemp] at h
          simp at h
      | false =>
          rcases hag : resolveRequestAgent db req with e' | ra
          · rw [deploy_release_eq_agent_err hfr hemp hag] at h
            simp at h
          · rw [deploy_release_eq_ok hfr hemp hag] at h
            simp only [Except.ok.injEq] at h
            rw [deploy_release_eq_ok hfr hemp hag]
            refine ⟨h.symm, _, _, _, rfl, rfl, rfl, rfl,
              deployStages_length db db.nextReleaseExecutionId ra nowT _ _ _, ?_⟩
            intro hnil
            have hlen := deployStages_length db db.nextReleaseExecutionId ra nowT
              (List.insertionSort stageOrder
                (db.releaseStages.filter (fun s => s.release_id == rid)))
              db.nextStageExecutionId db.nextReleasePickupId
            rw [hnil] at hlen
            have := List.eq_nil_of_length_eq_zero hlen.symm
            rw [this] at hemp
            simp at hemp

/-- Witness for `c8_deploy_release_atomic`: an unknown-release trigger
leaves the database untouched, while the agentless scenario trigger
commits a fan-out with exactly one stage row. -/
theorem c8_deploy_release_atomic_witness :
    (deploy_release agentlessReleaseDb 99 ⟨"t", none, none, []⟩ 0).1 =
      agentlessReleaseDb ∧
    ∃ re newSEs newPUs,
      (deploy_release agentlessReleaseDb 1 ⟨"t", none, none, []⟩ 0).1.releaseExecutions =
        agentlessReleaseDb.releaseExecutions ++ [re] ∧
      (deploy_release agentlessReleaseDb 1 ⟨"t", none, none, []⟩ 0).1.stageExecutions =
        agentlessReleaseDb.stageExecutions ++ newSEs ∧
      (deploy_release agentlessReleaseDb 1 ⟨"t", none, none, []⟩ 0).1.releasePickups =
        agentlessReleaseDb.releasePickups ++ newPUs ∧
      newSEs.length = 1 := by
  constructor
  · exact (c8_deploy_release_atomic agentlessReleaseDb 99 ⟨"t", none, none, []⟩ 0).1
      ⟨404, "Release not found"⟩ rfl
  · obtain ⟨-, re, newSEs, newPUs, h1, h2, h3, -, h5, -⟩ :=
      (c8_deploy_release_atomic agentlessReleaseDb 1 ⟨"t", none, none, []⟩ 0).2 1 rfl
    exact ⟨re, newSEs, newPUs, h1, h2, h3, h5.trans rfl⟩

/-! ## Per-stage pickup characterization of the fan-out -/

theorem stagePickupSpec_cons {db : Db} {ra : Option Agent} {nowT : Nat}
    (pu : ReleasePickup) (pus : List ReleasePickup) (stg : ReleaseStage)
    (se : StageExecution) (hne : (pu.stage_execution_id == se.id) = false) :
    stagePickupSpec db ra nowT pus stg se →
    stagePickupSpec db ra nowT (pu :: pus) stg se := by
  unfold stagePickupSpec
  rcases hA : resolveStageAgent db ra stg with _ | ag <;>
    cases hB : stageRequiresApproval db stg <;>
      simp only [hA, hB] <;> intro h <;>
        rw [List.filter_cons_of_neg (by simp [hne])] <;>
          exact h

theorem stagePickupSpec_prepend {db : Db} {ra : Option Agent} {nowT : Nat}
    (old pus' : List ReleasePickup) (stg : ReleaseStage) (se : StageExecution)
    (hnone : ∀ p ∈ old, (p.stage_execution_id == se.id) = false) :
    stagePickupSpec db ra nowT pus' stg se →
    stagePickupSpec db ra nowT (old ++ pus') stg se := by
  unfold stagePickupSpec
  rcases hA : resolveStageAgent db ra stg with _ | ag <;>
    cases hB : stageRequiresApproval db stg <;>
      simp only [hA, hB] <;> intro h <;>
        rw [List.filter_append,
            List.filter_eq_nil_iff.mpr (fun p hp => by simp [hnone p hp]),
            List.nil_append] <;>
          exact h

theorem deployStages_forall₂ (db : Db) (reId : Nat) (ra : Option Agent) (nowT : Nat) :
    ∀ (ss : List ReleaseStage) (nse npu : Nat),
      List.Forall₂ (fun stg se => nse ≤ se.id ∧
        stageRowMatch db ra reId stg se ∧
        stagePickupSpec db ra nowT (deployStages db reId ra nowT ss nse npu).2 stg se)
        ss (deployStages db reId ra nowT ss nse npu).1
  | [], nse, npu => by
      simp [deployStages]
  | stage :: rest, nse, npu => by
      rcases hA : resolveStageAgent db ra stage with _ | ag <;>
        cases hB : stageRequiresApproval db stage <;>
          simp only [deployStages, hA, hB]
      · -- no agent, no approval: stage execution created, no pickup
        constructor
        · refine ⟨Nat.le_refl nse, ?_, ?_⟩
          · simp [stageRowMatch, hA, hB]
          · simp only [stagePickupSpec, hA, hB]
            refine List.filter_eq_nil_iff.mpr ?_
            intro p hp
            have := deployStages_pu_lb db reId ra nowT rest (nse + 1) npu p hp
            simp only [beq_iff_eq]
            omega
        · refine List.Forall₂.imp ?_
            (deployStages_forall₂ db reId ra nowT rest (nse + 1) npu)
          rintro a b ⟨hlo, hrow, hps⟩
          exact ⟨by omega, hrow, hps⟩
      · -- no agent, approval required
        constructor
        · refine ⟨Nat.le_refl nse, ?_, ?_⟩
          · simp [stageRowMatch, hA, hB]
          · simp only [stagePickupSpec, hA, hB]
            refine List.filter_eq_nil_iff.mpr ?_
            intro p hp
            have := deployStages_pu_lb db reId ra nowT rest (nse + 1) npu p hp
            simp only [beq_iff_eq]
            omega
        · refine List.Forall₂.imp ?_
            (deployStages_forall₂ db reId ra nowT rest (nse + 1) npu)
          rintro a b ⟨hlo, hrow, hps⟩
          exact ⟨by omega, hrow, hps⟩
      · -- agent resolved, no approval: one pickup
        constructor
        · refine ⟨Nat.le_refl nse, ?_, ?_⟩
          · simp [stageRowMatch, hA, hB]
          · simp only [stagePickupSpec, hA, hB]
            refine ⟨{ id := npu, release_execution_id := reId,
                      stage_execution_id := nse, agent_id := ag.id,
                      agent_uuid := ag.uuid, agent_name := ag.name,
                      status := "pending", priority := stage.order_index,
                      created_at := nowT, picked_up_at := none,
                      started_at := none, completed_at := none,
                      error_message := none },
                    ?_, rfl, rfl, rfl, rfl, rfl, rfl, rfl⟩
            rw [List.filter_cons_of_pos (by simp)]
            rw [List.filter_eq_nil_iff.mpr ?_]
            intro p hp
            have := deployStages_pu_lb db reId ra nowT rest (nse + 1) (npu + 1) p hp
            simp only [beq_iff_eq]
            omega
        · refine List.Forall₂.imp ?_
            (deployStages_forall₂ db reId ra nowT rest (nse + 1) (npu + 1))
          rintro a b ⟨hlo, hrow, hps⟩
          refine ⟨by omega, hrow, ?_⟩
          refine stagePickupSpec_cons _ _ _ _ ?_ hps
          simp only [beq_eq_false_iff_ne]
          omega
      · -- agent resolved, approval required
        constructor
        · refine ⟨Nat.le_refl nse, ?_, ?_⟩
          · simp [stageRowMatch, hA, hB]
          · simp only [stagePickupSpec, hA, hB]
            refine List.filter_eq_nil_iff.mpr ?_
            intro p hp
            have := deployStages_pu_lb db reId ra nowT rest (nse + 1) npu p hp
            simp only [beq_iff_eq]
            omega
        · refine List.Forall₂.imp ?_
            (deployStages_forall₂ db reId ra nowT rest (nse + 1) npu)
          rintro a b ⟨hlo, hrow, hps⟩
          exact ⟨by omega, hrow, hps⟩

/-! ## C4 — deploy fan-out: stage rows and immediate pickups -/

/-- C4 counterexample: in `agentlessReleaseDb` the single stage needs
no approval, so the claim demands exactly one immediate pickup; the
deploy succeeds, the stage execution is created with status `pending`,
yet no `ReleasePickup` row exists, because the stage has no agent and
the request supplies none. -/
theorem c4_counterexample_no_agent_no_pickup :
    (deploy_release agentlessReleaseDb 1 ⟨"t", none, none, []⟩ 0).2 = .ok 1 ∧
    stageRequiresApproval agentlessReleaseDb agentlessStage = false ∧
    (deploy_release agentlessReleaseDb 1 ⟨"t", none, none, []⟩ 0).1.stageExecutions.map
      StageExecution.status = ["pending"] ∧
    (deploy_release agentlessReleaseDb 1 ⟨"t", none, none, []⟩ 0).1.releasePickups = [] :=
  ⟨rfl, rfl, rfl, rfl⟩

/-- C4 (amended): on a successful `deploy_release`, one
`StageExecution` is appended per stage in `order_index` order; a stage
gated by `pre_deployment_approval` or an approving environment starts
`awaiting_approval`/`pending` with no pickup; an ungated stage starts
`pending`/`not_required` and gets exactly one immediate pending pickup
— bound to the stage's own agent, else the request-level agent — when
such an agent resolves, and no pickup at all when neither the stage
nor the request supplies one. -/
theorem c4_deploy_fanout_amended
    (db : Db) (rid : Nat) (req : DeployReleaseRequest) (nowT : Nat)
    (rel : Release) (reqAgent : Option Agent)
    (hrel : db.releases.find? (fun r => r.id == rid) = some rel)
    (hne : (List.insertionSort stageOrder
      (db.releaseStages.filter (fun s => s.release_id == rid))).isEmpty = false)
    (hag : resolveRequestAgent db req = .ok reqAgent)
    (hwf : ∀ p ∈ db.releasePickups, p.stage_execution_id < db.nextStageExecutionId) :
    (deploy_release db rid req nowT).2 = .ok db.nextReleaseExecutionId ∧
    ∃ newSEs,
      (deploy_release db rid req nowT).1.stageExecutions =
        db.stageExecutions ++ newSEs ∧
      List.Forall₂ (fun stg se =>
          stageRowMatch db reqAgent db.nextReleaseExecutionId stg se ∧
          stagePickupSpec db reqAgent nowT
            (deploy_release db rid req nowT).1.releasePickups stg se)
        (List.insertionSort stageOrder
          (db.releaseStages.filter (fun s => s.release_id == rid)))
        newSEs := by
  rw [deploy_release_eq_ok hrel hne hag]
  refine ⟨rfl, _, rfl, ?_⟩
  refine List.Forall₂.imp ?_
    (deployStages_forall₂ db db.nextReleaseExecutionId reqAgent nowT
      (List.insertionSort stageOrder
        (db.releaseStages.filter (fun s => s.release_id == rid)))
      db.nextStageExecutionId db.nextReleasePickupId)
  rintro a b ⟨hlo, hrow, hps⟩
  refine ⟨hrow, ?_⟩
  refine stagePickupSpec_prepend _ _ _ _ ?_ hps
  intro p hp
  have := hwf p hp
  simp only [beq_eq_false_iff_ne]
  omega

/-- Witness for `c4_deploy_fanout_amended` on the agentless scenario. -/
theorem c4_deploy_fanout_amended_witness :
    (deploy_release agentlessReleaseDb 1 ⟨"t", none, none, []⟩ 0).2 = .ok 1 ∧
    ∃ newSEs,
      (deploy_release agentlessReleaseDb 1 ⟨"t", none, none, []⟩ 0).1.stageExecutions =
        agentlessReleaseDb.stageExecutions ++ newSEs ∧
      List.Forall₂ (fun stg se =>
          stageRowMatch agentlessReleaseDb none 1 stg se ∧
          stagePickupSpec agentlessReleaseDb none 0
            (deploy_release agentlessReleaseDb 1 ⟨"t", none, none, []⟩ 0).1.releasePickups
            stg se)
        (List.insertionSort stageOrder
          (agentlessReleaseDb.releaseStages.filter (fun s => s.release_id == 1)))
        newSEs :=
  c4_deploy_fanout_amended agentlessReleaseDb 1 ⟨"t", none, none, []⟩ 0
    ⟨1, "rel"⟩ none rfl rfl rfl (by simp [agentlessReleaseDb, emptyDb])

/-! ## Freshness and frame lemmas towards the unreachable-stage claim -/

theorem find?_eq_of_get?_seq :
    ∀ {l : List StageExecution} {base i : Nat} {se : StageExecution},
      (∀ j x, l.get? j = some x → x.id = base + j) →
      l.get? i = some se →
      l.find? (fun x => x.id == base + i) = some se
  | [], _, i, se, _, hget => by simp at hget
  | a :: t, base, i, se, hids, hget => by
      have ha : a.id = base := by
        have := hids 0 a rfl
        omega
      cases i with
      | zero =>
          simp only [List.get?_cons_zero, Option.some.injEq] at hget
          subst hget
          rw [List.find?_cons_of_pos _ (by simp [ha])]
      | succ k =>
          simp only [List.get?_cons_succ] at hget
          rw [List.find?_cons_of_neg _ (by simp; omega)]
          have hids' : ∀ j x, t.get? j = some x → x.id = (base + 1) + j := by
            intro j x hx
            have := hids (j + 1) x (by simpa using hx)
            omega
          have := find?_eq_of_get?_seq hids' hget
          have harith : base + (k + 1) = (base + 1) + k := by omega
          rw [harith]
          exact this

theorem deployStages_se_ub (db : Db) (reId : Nat) (ra : Option Agent) (nowT : Nat)
    (ss : List ReleaseStage) (nse npu : Nat) :
    ∀ se ∈ (deployStages db reId ra nowT ss nse npu).1,
      se.id < nse + (deployStages db reId ra nowT ss nse npu).1.length := by
  intro se hse
  obtain ⟨n, hget⟩ := List.mem_iff_get?.mp hse
  have h1 := deployStages_se_ids db reId ra nowT ss nse npu n se hget
  have h2 : n < (deployStages db reId ra nowT ss nse npu).1.length := by
    rcases List.get?_eq_some.mp hget with ⟨h, -⟩
    exact h
  omega

theorem deployStages_pu_ub (db : Db) (reId : Nat) (ra : Option Agent) (nowT : Nat) :
    ∀ (ss : List ReleaseStage) (nse npu : Nat),
      ∀ pu ∈ (deployStages db reId ra nowT ss nse npu).2,
        pu.stage_execution_id < nse + ss.length
  | [], _, _ => by
      intro pu hpu
      simp [deployStages] at hpu
  | stage :: rest, nse, npu => by
      intro pu hpu
      simp only [deployStages] at hpu
      split at hpu
      · rcases List.mem_cons.mp hpu with h | h
        · subst h
          simp
        · have := deployStages_pu_ub db reId ra nowT rest (nse + 1) (npu + 1) pu h
          simp only [List.length_cons]
          omega
      · have := deployStages_pu_ub db reId ra nowT rest (nse + 1) npu pu hpu
        simp only [List.length_cons]
        omega

theorem run_pipeline_frame (db : Db) (plid : Nat) (req : RunPipelineRequest)
    (nowT : Nat) :
    (run_pipeline db plid req nowT).1.releasePickups = db.releasePickups ∧
    (run_pipeline db plid req nowT).1.stageExecutions = db.stageExecutions ∧
    (run_pipeline db plid req nowT).1.nextStageExecutionId = db.nextStageExecutionId := by
  rcases hf : db.pipelines.find? (fun p => p.id == plid) with _ | pl
  · simp [run_pipeline, hf]
  · rcases hra : req.agent_id with _ | a
    · rcases hpa : pl.agent_id with _ | a
      · simp [run_pipeline, hf, hra, hpa]
      · rcases hfa : db.agents.find? (fun x => x.id == a) with _ | agent
        · simp [run_pipeline, hf, hra, hpa, hfa]
        · simp [run_pipeline, hf, hra, hpa, hfa]
    · rcases hfa : db.agents.find? (fun x => x.id == a) with _ | agent
      · simp [run_pipeline, hf, hra, hfa]
      · simp [run_pipeline, hf, hra, hfa]

theorem ack_pipeline_frame (db : Db) (pid nowT : Nat) :
    (acknowledge_pipeline_pickup db pid nowT).1.releasePickups = db.releasePickups ∧
    (acknowledge_pipeline_pickup db pid nowT).1.stageExecutions = db.stageExecutions ∧
    (acknowledge_pipeline_pickup db pid nowT).1.nextStageExecutionId =
      db.nextStageExecutionId := by
  rcases hf : db.pipelinePickups.find? (fun p => p.id == pid) with _ | pu
  · simp [acknowledge_pipeline_pickup, hf]
  · simp [acknowledge_pipeline_pickup, hf]

theorem start_pipeline_frame (db : Db) (pid nowT : Nat) :
    (start_pipeline_pickup db pid nowT).1.releasePickups = db.releasePickups ∧
    (start_pipeline_pickup db pid nowT).1.stageExecutions = db.stageExecutions ∧
    (start_pipeline_pickup db pid nowT).1.nextStageExecutionId =
      db.nextStageExecutionId := by
  rcases hf : db.pipelinePickups.find? (fun p => p.id == pid) with _ | pu
  · simp [start_pipeline_pickup, hf]
  · simp [start_pipeline_pickup, hf]

theorem complete_pipeline_frame (db : Db) (pid : Nat) (success : Bool)
    (em : Option String) (nowT : Nat) :
    (complete_pipeline_pickup db pid success em nowT).1.releasePickups =
      db.releasePickups ∧
    (complete_pipeline_pickup db pid success em nowT).1.stageExecutions =
      db.stageExecutions ∧
    (complete_pipeline_pickup db pid success em nowT).1.nextStageExecutionId =
      db.nextStageExecutionId := by
  rcases hf : db.pipelinePickups.find? (fun p => p.id == pid) with _ | pu
  · simp [complete_pipeline_pickup, hf]
  · simp [complete_pipeline_pickup, hf]

/-- Preservation: one dispatch request cannot create a pickup for an
agent-less `not_required`/`pending` stage, move that stage, or break
id freshness. -/
theorem stageUnreachable_step (db : Db) (sid rid : Nat) (op : DispatchOp)
    (h : StageUnreachable db sid rid) :
    StageUnreachable (applyDispatchOp db op) sid rid := by
  obtain ⟨hpk, ⟨s₀, hfind, hst, hap, hrei⟩, hwf⟩ := h
  have hsid : s₀.id = sid := by
    have := List.find?_some hfind
    simpa using this
  have hsidlt : sid < db.nextStageExecutionId := by
    have := hwf s₀ (List.mem_of_find?_eq_some hfind)
    omega
  cases op with
  | deployRelease rid' req nowT =>
      simp only [applyDispatchOp]
      rcases hfr : db.releases.find? (fun r => r.id == rid') with _ | rel
      · rw [deploy_release_eq_notfound hfr]
        exact ⟨hpk, ⟨s₀, hfind, hst, hap, hrei⟩, hwf⟩
      · cases hemp : (List.insertionSort stageOrder
            (db.releaseStages.filter (fun s => s.release_id == rid'))).isEmpty with
        | true =>
            rw [deploy_release_eq_nostages hfr hemp]
            exact ⟨hpk, ⟨s₀, hfind, hst, hap, hrei⟩, hwf⟩
        | false =>
            rcases hag : resolveRequestAgent db req with e | ra
            · rw [deploy_release_eq_agent_err hfr hemp hag]
              exact ⟨hpk, ⟨s₀, hfind, hst, hap, hrei⟩, hwf⟩
            · rw [deploy_release_eq_ok hfr hemp hag]
              refine ⟨?_, ⟨s₀, ?_, hst, hap, hrei⟩, ?_⟩ <;> dsimp only
              · intro p hp
                rcases List.mem_append.mp hp with h' | h'
                · exact hpk p h'
                · have := deployStages_pu_lb db db.nextReleaseExecutionId ra nowT
                    _ _ _ p h'
                  omega
              · rw [List.find?_append, hfind]
                rfl
              · intro s hs
                rcases List.mem_append.mp hs with h' | h'
                · have := hwf s h'
                  omega
                · have := deployStages_se_ub db db.nextReleaseExecutionId ra nowT
                    _ _ _ s h'
                  omega
  | approveStage sid' req nowT =>
      simp only [applyDispatchOp]
      rcases hf : db.stageExecutions.find? (fun s => s.id == sid') with _ | st
      · simp only [approve_stage, hf]
        exact ⟨hpk, ⟨s₀, hfind, hst, hap, hrei⟩, hwf⟩
      · by_cases hpend : st.approval_status = "pending"
        · have hne : sid' ≠ sid := by
            intro he
            subst he
            rw [hf] at hfind
            cases hfind
            exact absurd (hap.symm.trans hpend) (by decide)
          have hstid : st.id = sid' := by
            have := List.find?_some hf
            simpa using this
          have hb : (st.approval_status != "pending") = false := by
            simp [bne, hpend]
          simp only [approve_stage, hf, hb, Bool.false_eq_true, if_false]
          have hdisj : ∀ x : StageExecution, (x.id == sid') = true →
              (x.id == sid) = false ∧
              ((((fun s => { s with
                  approval_status := "approved"
                  approved_by := some req.approved_by
                  approved_at := some nowT
                  approval_comments := req.comments
                  status := "pending" } : StageExecution → StageExecution) x).id == sid)
                = false) := by
            intro x hx
            simp only [beq_iff_eq] at hx
            constructor <;>
              (simp only [beq_eq_false_iff_ne]
               try dsimp only
               intro hcon
               exact hne (by omega))
          have hfind' := find?_updateFirst_of_ne hdisj db.stageExecutions
          have hwf' : ∀ s ∈ updateFirst (fun s => s.id == sid')
              (fun s => { s with
                  approval_status := "approved"
                  approved_by := some req.approved_by
                  approved_at := some nowT
                  approval_comments := req.comments
                  status := "pending" }) db.stageExecutions,
              s.id < db.nextStageExecutionId := by
            intro s hs
            rcases mem_updateFirst hs with h' | ⟨x, hx, -, hxx⟩
            · exact hwf s h'
            · subst hxx
              exact hwf x hx
          rcases hagid : st.agent_id with _ | aid
          · simp only [hagid]
            refine ⟨hpk, ⟨s₀, ?_, hst, hap, hrei⟩, hwf'⟩
            rw [hfind']
            exact hfind
          · rcases hfa : db.agents.find? (fun a => a.id == aid) with _ | agent
            · simp only [hagid, hfa]
              refine ⟨hpk, ⟨s₀, ?_, hst, hap, hrei⟩, hwf'⟩
              rw [hfind']
              exact hfind
            · simp only [hagid, hfa]
              refine ⟨?_, ⟨s₀, ?_, hst, hap, hrei⟩, hwf'⟩
              · intro p hp
                rcases List.mem_append.mp hp with h' | h'
                · exact hpk p h'
                · rcases List.mem_singleton.mp h' with rfl
                  dsimp only
                  intro hcon
                  omega
              · rw [hfind']
                exact hfind
        · have hb : (st.approval_status != "pending") = true := by
            simpa [bne_iff_ne] using hpend
          simp only [approve_stage, hf, hb, if_true]
          exact ⟨hpk, ⟨s₀, hfind, hst, hap, hrei⟩, hwf⟩
  | rejectStage sid' req nowT =>
      simp only [applyDispatchOp]
      rcases hf : db.stageExecutions.find? (fun s => s.id == sid') with _ | st
      · simp only [reject_stage, hf]
        exact ⟨hpk, ⟨s₀, hfind, hst, hap, hrei⟩, hwf⟩
      · by_cases hpend : st.approval_status = "pending"
        · have hne : sid' ≠ sid := by
            intro he
            subst he
            rw [hf] at hfind
            cases hfind
            exact absurd (hap.symm.trans hpend) (by decide)
          have hb : (st.approval_status != "pending") = false := by
            simp [bne, hpend]
          simp only [reject_stage, hf, hb, Bool.false_eq_true, if_false]
          have hdisj : ∀ x : StageExecution, (x.id == sid') = true →
              (x.id == sid) = false ∧
              ((((fun s => { s with
                  approval_status := "rejected"
                  approved_by := some req.approved_by
                  approved_at := some nowT
                  approval_comments := req.comments
                  status := "cancelled" } : StageExecution → StageExecution) x).id == sid)
                = false) := by
            intro x hx
            simp only [beq_iff_eq] at hx
            constructor <;>
              (simp only [beq_eq_false_iff_ne]
               try dsimp only
               intro hcon
               exact hne (by omega))
          refine ⟨hpk, ⟨s₀, ?_, hst, hap, hrei⟩, ?_⟩
          · rw [find?_updateFirst_of_ne hdisj db.stageExecutions]
            exact hfind
          · intro s hs
            rcases mem_updateFirst hs with h' | ⟨x, hx, -, hxx⟩
            · exact hwf s h'
            · subst hxx
              exact hwf x hx
        · have hb : (st.approval_status != "pending") = true := by
            simpa [bne_iff_ne] using hpend
          simp only [reject_stage, hf, hb, if_true]
          exact ⟨hpk, ⟨s₀, hfind, hst, hap, hrei⟩, hwf⟩
  | ackRelease pid nowT =>
      simp only [applyDispatchOp]
      rcases hf : db.releasePickups.find? (fun p => p.id == pid) with _ | pickup
      · simp only [acknowledge_release_pickup, hf]
        exact ⟨hpk, ⟨s₀, hfind, hst, hap, hrei⟩, hwf⟩
      · have hpne : pickup.stage_execution_id ≠ sid :=
          hpk pickup (List.mem_of_find?_eq_some hf)
        simp only [acknowledge_release_pickup, hf]
        have hdisj : ∀ x : StageExecution,
            (x.id == pickup.stage_execution_id) = true →
            (x.id == sid) = false ∧
            ((((fun s => { s with status := "in_progress", started_at := some nowT } :
                StageExecution → StageExecution) x).id == sid) = false) := by
          intro x hx
          simp only [beq_iff_eq] at hx
          constructor <;>
            (simp only [beq_eq_false_iff_ne]
             try dsimp only
             intro hcon
             exact hpne (by omega))
        refine ⟨?_, ⟨s₀, ?_, hst, hap, hrei⟩, ?_⟩
        · intro p hp
          rcases mem_updateFirst hp with h' | ⟨x, hx, -, hxx⟩
          · exact hpk p h'
          · subst hxx
            exact hpk x hx
        · rw [find?_updateFirst_of_ne hdisj db.stageExecutions]
          exact hfind
        · intro s hs
          rcases mem_updateFirst hs with h' | ⟨x, hx, -, hxx⟩
          · exact hwf s h'
          · subst hxx
            exact hwf x hx
  | startRelease pid nowT =>
      simp only [applyDispatchOp]
      rcases hf : db.releasePickups.find? (fun p => p.id == pid) with _ | pickup
      · simp only [start_release_execution, hf]
        exact ⟨hpk, ⟨s₀, hfind, hst, hap, hrei⟩, hwf⟩
      · simp only [start_release_execution, hf]
        refine ⟨?_, ⟨s₀, hfind, hst, hap, hrei⟩, hwf⟩
        intro p hp
        rcases mem_updateFirst hp with h' | ⟨x, hx, -, hxx⟩
        · exact hpk p h'
        · subst hxx
          exact hpk x hx
  | completeRelease pid sc em nowT =>
      simp only [applyDispatchOp]
      rcases hf : db.releasePickups.find? (fun p => p.id == pid) with _ | pickup
      · simp only [complete_release_pickup, hf]
        exact ⟨hpk, ⟨s₀, hfind, hst, hap, hrei⟩, hwf⟩
      · have hpne : pickup.stage_execution_id ≠ sid :=
          hpk pickup (List.mem_of_find?_eq_some hf)
        simp only [complete_release_pickup, hf]
        have hdisj : ∀ x : StageExecution,
            (x.id == pickup.stage_execution_id) = true →
            (x.id == sid) = false ∧
            ((completeStageUpdate sc nowT x).id == sid) = false := by
          intro x hx
          simp only [beq_iff_eq] at hx
          rw [completeStageUpdate_id]
          constructor <;>
            (simp only [beq_eq_false_iff_ne]
             intro hcon
             exact hpne (by omega))
        refine ⟨?_, ⟨s₀, ?_, hst, hap, hrei⟩, ?_⟩
        · intro p hp
          rcases mem_updateFirst hp with h' | ⟨x, hx, -, hxx⟩
          · exact hpk p h'
          · subst hxx
            rw [completePickupUpdate_sid]
            exact hpk x hx
        · rw [find?_updateFirst_of_ne hdisj db.stageExecutions]
          exact hfind
        · intro s hs
          rcases mem_updateFirst hs with h' | ⟨x, hx, -, hxx⟩
          · exact hwf s h'
          · subst hxx
            rw [completeStageUpdate_id]
            exact hwf x hx
  | runPipeline plid req nowT =>
      simp only [applyDispatchOp]
      obtain ⟨f1, f2, f3⟩ := run_pipeline_frame db plid req nowT
      refine ⟨?_, ⟨s₀, ?_, hst, hap, hrei⟩, ?_⟩
      · rw [f1]
        exact hpk
      · rw [f2]
        exact hfind
      · intro s hs
        rw [f2] at hs
        rw [f3]
        exact hwf s hs
  | ackPipeline pid nowT =>
      simp only [applyDispatchOp]
      obtain ⟨f1, f2, f3⟩ := ack_pipeline_frame db pid nowT
      refine ⟨?_, ⟨s₀, ?_, hst, hap, hrei⟩, ?_⟩
      · rw [f1]
        exact hpk
      · rw [f2]
        exact hfind
      · intro s hs
        rw [f2] at hs
        rw [f3]
        exact hwf s hs
  | startPipeline pid nowT =>
      simp only [applyDispatchOp]
      obtain ⟨f1, f2, f3⟩ := start_pipeline_frame db pid nowT
      refine ⟨?_, ⟨s₀, ?_, hst, hap, hrei⟩, ?_⟩
      · rw [f1]
        exact hpk
      · rw [f2]
        exact hfind
      · intro s hs
        rw [f2] at hs
        rw [f3]
        exact hwf s hs
  | completePipeline pid sc em nowT =>
      simp only [applyDispatchOp]
      obtain ⟨f1, f2, f3⟩ := complete_pipeline_frame db pid sc em nowT
      refine ⟨?_, ⟨s₀, ?_, hst, hap, hrei⟩, ?_⟩
      · rw [f1]
        exact hpk
      · rw [f2]
        exact hfind
      · intro s hs
        rw [f2] at hs
        rw [f3]
        exact hwf s hs

/-- Preservation over any request sequence. -/
theorem stageUnreachable_steps (db : Db) (sid rid : Nat) (ops : List DispatchOp)
    (h : StageUnreachable db sid rid) :
    StageUnreachable (applyDispatchOps db ops) sid rid := by
  induction ops generalizing db with
  | nil => exact h
  | cons op rest ih => exact ih (applyDispatchOp db op) (stageUnreachable_step db sid rid op h)

/-- An unreachable stage is never returned by the release poll. -/
theorem stageUnreachable_not_polled (db : Db) (sid rid : Nat) (u : String)
    (h : StageUnreachable db sid rid) {l : List ReleasePickup}
    (hl : get_pending_releases db u = .ok l) :
    ∀ p ∈ l, p.stage_execution_id ≠ sid := by
  obtain ⟨hpk, -, -⟩ := h
  intro p hp
  rcases hA : db.agents.find? (fun a => a.uuid == u) with _ | ag
  · simp only [get_pending_releases, hA] at hl
    cases hl
  · simp only [get_pending_releases, hA, Except.ok.injEq] at hl
    subst hl
    have hmem : p ∈ db.releasePickups.filter (releasePickupVisible u) :=
      (List.mem_insertionSort releasePickupOrder).mp hp
    exact hpk p (List.mem_filter.mp hmem).1

/-- With an unreachable stage in the release, the aggregation branch of
`complete_release_pickup` never rewrites the parent release-execution
row. -/
theorem stageUnreachable_no_finalize (db : Db) (sid rid : Nat)
    (pid : Nat) (sc : Bool) (em : Option String) (nowT : Nat)
    (h : StageUnreachable db sid rid) :
    (complete_release_pickup db pid sc em nowT).1.releaseExecutions.find?
        (fun r => r.id == rid) =
      db.releaseExecutions.find? (fun r => r.id == rid) := by
  obtain ⟨hpk, ⟨s₀, hfind, hst, hap, hrei⟩, hwf⟩ := h
  have hsid : s₀.id = sid := by
    have := List.find?_some hfind
    simpa using this
  rcases hf : db.releasePickups.find? (fun p => p.id == pid) with _ | pickup
  · simp only [complete_release_pickup, hf]
  · have hpne : pickup.stage_execution_id ≠ sid :=
      hpk pickup (List.mem_of_find?_eq_some hf)
    simp only [complete_release_pickup, hf]
    rcases hre : db.releaseExecutions.find?
        (fun r => r.id == pickup.release_execution_id) with _ | re
    · simp only [hre]
    · simp only [hre]
      have hdisj : ∀ x : StageExecution,
          (x.id == pickup.stage_execution_id) = true →
          (x.id == sid) = false ∧
          ((completeStageUpdate sc nowT x).id == sid) = false := by
        intro x hx
        simp only [beq_iff_eq] at hx
        rw [completeStageUpdate_id]
        constructor <;>
          (simp only [beq_eq_false_iff_ne]
           intro hcon
           exact hpne (by omega))
      have hfind' : (updateFirst (fun s => s.id == pickup.stage_execution_id)
          (completeStageUpdate sc nowT) db.stageExecutions).find?
          (fun x => x.id == sid) = some s₀ := by
        rw [find?_updateFirst_of_ne hdisj]
        exact hfind
      have hreid : re.id = pickup.release_execution_id := by
        have := List.find?_some hre
        simpa using this
      by_cases hrid : pickup.release_execution_id = rid
      · have hfal : ((updateFirst (fun s => s.id == pickup.stage_execution_id)
            (completeStageUpdate sc nowT) db.stageExecutions).filter
            (fun s => s.release_execution_id == re.id)).all
              (fun s => stageTerminal s.status) = false := by
          rw [List.all_eq_false]
          refine ⟨s₀, ?_, ?_⟩
          · refine List.mem_filter.mpr ⟨List.mem_of_find?_eq_some hfind', ?_⟩
            simp [hrei, hreid, hrid]
          · rw [hst]
            decide
        rw [hfal]
        simp only [Bool.false_eq_true, if_false]
      · cases hC : ((updateFirst (fun s => s.id == pickup.stage_execution_id)
            (completeStageUpdate sc nowT) db.stageExecutions).filter
            (fun s => s.release_execution_id == re.id)).all
              (fun s => stageTerminal s.status) with
        | false =>
            simp only [Bool.false_eq_true, if_false]
        | true =>
            simp only [eq_self_iff_true, if_true]
            apply find?_updateFirst_of_ne
            intro x hx
            simp only [beq_iff_eq] at hx
            rw [completeReleaseUpdate_id]
            constructor <;>
              (simp only [beq_eq_false_iff_ne]
               intro hcon
               exact hrid (by omega))

/-- In the fan-out, a stage with no agent and no approval gate yields a
`pending` agent-less stage execution that no created pickup
references. -/
theorem deployStages_unreachable (db : Db) (reN nowT : Nat)
    (S : List ReleaseStage) (nse npu i : Nat) (stg : ReleaseStage)
    (hstg : S.get? i = some stg) (hnoagent : stg.agent_id = none)
    (hnoappr : stageRequiresApproval db stg = false) :
    ∃ se, (deployStages db reN none nowT S nse npu).1.get? i = some se ∧
      se.release_stage_id = stg.id ∧ se.status = "pending" ∧
      se.agent_id = none ∧ se.agent_name = none ∧
      se.release_execution_id = reN ∧ se.approval_status = "not_required" ∧
      se.id = nse + i ∧
      ∀ pu ∈ (deployStages db reN none nowT S nse npu).2,
        pu.stage_execution_id ≠ se.id := by
  obtain ⟨hi, hgetEq⟩ := List.get?_eq_some.mp hstg
  have hlen := deployStages_length db reN none nowT S nse npu
  have hi' : i < (deployStages db reN none nowT S nse npu).1.length := by omega
  have hget' : (deployStages db reN none nowT S nse npu).1.get? i =
      some ((deployStages db reN none nowT S nse npu).1.get ⟨i, hi'⟩) :=
    List.get?_eq_get hi'
  have hrel2 := (deployStages_forall₂ db reN none nowT S nse npu).get hi hi'
  rw [hgetEq] at hrel2
  obtain ⟨hlo, hrow, hps⟩ := hrel2
  obtain ⟨hrei', hrsid, henv, hagid, hagname, hstat, happr⟩ := hrow
  have hresnone : resolveStageAgent db none stg = none := by
    simp [resolveStageAgent, hnoagent]
  have hid := deployStages_se_ids db reN none nowT S nse npu i _ hget'
  simp only [stagePickupSpec, hresnone, hnoappr] at hps
  refine ⟨_, hget', hrsid, ?_, ?_, ?_, hrei', ?_, hid, ?_⟩
  · rw [hstat, hnoappr]
    rfl
  · rw [hagid, hresnone]
    rfl
  · rw [hagname, hresnone]
    rfl
  · rw [happr, hnoappr]
    rfl
  · intro pu hpu
    have := List.filter_eq_nil_iff.mp hps pu hpu
    simpa using this

/-- Deploying a release whose stage `i` has no agent and no approval
gate, with no request-level agent, succeeds and leaves that stage
execution `pending`, agent-less and unreachable. -/
theorem deploy_creates_unreachable_stage
    (db : Db) (rid : Nat) (req : DeployReleaseRequest) (nowT : Nat)
    (rel : Release) (i : Nat) (stg : ReleaseStage)
    (hrel : db.releases.find? (fun r => r.id == rid) = some rel)
    (hne : (List.insertionSort stageOrder
      (db.releaseStages.filter (fun s => s.release_id == rid))).isEmpty = false)
    (hreq : req.agent_id = none)
    (hwfP : ∀ p ∈ db.releasePickups, p.stage_execution_id < db.nextStageExecutionId)
    (hwfS : ∀ s ∈ db.stageExecutions, s.id < db.nextStageExecutionId)
    (hstg : (List.insertionSort stageOrder
      (db.releaseStages.filter (fun s => s.release_id == rid))).get? i = some stg)
    (hnoagent : stg.agent_id = none)
    (hnoappr : stageRequiresApproval db stg = false) :
    (deploy_release db rid req nowT).2 = .ok db.nextReleaseExecutionId ∧
    ∃ se, se ∈ (deploy_release db rid req nowT).1.stageExecutions ∧
      se.release_stage_id = stg.id ∧ se.status = "pending" ∧
      se.agent_id = none ∧ se.agent_name = none ∧
      StageUnreachable (deploy_release db rid req nowT).1 se.id
        db.nextReleaseExecutionId := by
  have hag : resolveRequestAgent db req = .ok none := by
    simp [resolveRequestAgent, hreq]
  obtain ⟨se, hget, hrsid, hstat, hagid, hagname, hrei, happr, hid, hpus⟩ :=
    deployStages_unreachable db db.nextReleaseExecutionId nowT
      (List.insertionSort stageOrder
        (db.releaseStages.filter (fun s => s.release_id == rid)))
      db.nextStageExecutionId db.nextReleasePickupId i stg hstg hnoagent hnoappr
  rw [deploy_release_eq_ok hrel hne hag]
  dsimp only
  refine ⟨rfl, se, ?_, hrsid, hstat, hagid, hagname, ?_⟩
  · exact List.mem_append.mpr (Or.inr (List.mem_iff_get?.mpr ⟨i, hget⟩))
  · refine ⟨?_, ⟨se, ?_, hstat, happr, hrei⟩, ?_⟩
    · intro p hp
      rcases List.mem_append.mp hp with h' | h'
      · have := hwfP p h'
        omega
      · exact hpus p h'
    · dsimp only
      rw [List.find?_append]
      have hnone : db.stageExecutions.find? (fun x => x.id == se.id) = none := by
        rw [List.find?_eq_none]
        intro x hx
        have := hwfS x hx
        simp only [beq_iff_eq]
        omega
      rw [hnone, Option.none_or]
      have hfnd := find?_eq_of_get?_seq
        (fun j x hx => deployStages_se_ids db db.nextReleaseExecutionId none nowT
          (List.insertionSort stageOrder
            (db.releaseStages.filter (fun s => s.release_id == rid)))
          db.nextStageExecutionId db.nextReleasePickupId j x hx) hget
      simp only [hid]
      exact hfnd
    · dsimp only
      intro s hs
      rcases List.mem_append.mp hs with h' | h'
      · have := hwfS s h'
        omega
      · have := deployStages_se_ub db db.nextReleaseExecutionId none nowT
          (List.insertionSort stageOrder
            (db.releaseStages.filter (fun s => s.release_id == rid)))
          db.nextStageExecutionId db.nextReleasePickupId s h'
        omega

/-! ## C10 — an agent-less, approval-free stage silently never runs -/

/-- C10: deploying a release with a stage that needs no approval but
resolves no agent (no stage agent, no request agent) still succeeds:
the stage execution is created `pending` with no agent and no pickup
references it (`StageUnreachable`).  That state is preserved by every
dispatch request sequence, such a stage is never returned by the poll,
and `complete_release_pickup`'s aggregation never rewrites the parent
release-execution row — the release never finalizes and no error is
ever reported. -/
theorem c10_agentless_stage_never_runs :
    (∀ (db : Db) (rid : Nat) (req : DeployReleaseRequest) (nowT : Nat)
       (rel : Release) (i : Nat) (stg : ReleaseStage),
       db.releases.find? (fun r => r.id == rid) = some rel →
       (List.insertionSort stageOrder
         (db.releaseStages.filter (fun s => s.release_id == rid))).isEmpty = false →
       req.agent_id = none →
       (∀ p ∈ db.releasePickups, p.stage_execution_id < db.nextStageExecutionId) →
       (∀ s ∈ db.stageExecutions, s.id < db.nextStageExecutionId) →
       (List.insertionSort stageOrder
         (db.releaseStages.filter (fun s => s.release_id == rid))).get? i = some stg →
       stg.agent_id = none →
       stageRequiresApproval db stg = false →
       (deploy_release db rid req nowT).2 = .ok db.nextReleaseExecutionId ∧
       ∃ se, se ∈ (deploy_release db rid req nowT).1.stageExecutions ∧
         se.release_stage_id = stg.id ∧ se.status = "pending" ∧
         se.agent_id = none ∧ se.agent_name = none ∧
         StageUnreachable (deploy_release db rid req nowT).1 se.id
           db.nextReleaseExecutionId) ∧
    (∀ (db : Db) (sid rid : Nat) (ops : List DispatchOp),
       StageUnreachable db sid rid →
       StageUnreachable (applyDispatchOps db ops) sid rid) ∧
    (∀ (db : Db) (sid rid : Nat) (u : String) (l : List ReleasePickup),
       StageUnreachable db sid rid → get_pending_releases db u = .ok l →
       ∀ p ∈ l, p.stage_execution_id ≠ sid) ∧
    (∀ (db : Db) (sid rid pid : Nat) (sc : Bool) (em : Option String) (nowT : Nat),
       StageUnreachable db sid rid →
       (complete_release_pickup db pid sc em nowT).1.releaseExecutions.find?
           (fun r => r.id == rid) =
         db.releaseExecutions.find? (fun r => r.id == rid)) :=
  ⟨fun db rid req nowT rel i stg h1 h2 h3 h4 h5 h6 h7 h8 =>
     deploy_creates_unreachable_stage db rid req nowT rel i stg h1 h2 h3 h4 h5 h6 h7 h8,
   fun db sid rid ops h => stageUnreachable_steps db sid rid ops h,
   fun db sid rid u l h hl => stageUnreachable_not_polled db sid rid u h hl,
   fun db sid rid pid sc em nowT h =>
     stageUnreachable_no_finalize db sid rid pid sc em nowT h⟩

/-- Witness for `c10_agentless_stage_never_runs` on the agentless and
orphan-stage scenarios. -/
theorem c10_agentless_stage_never_runs_witness :
    ((deploy_release agentlessReleaseDb 1 ⟨"t", none, none, []⟩ 0).2 = .ok 1 ∧
     ∃ se, se ∈ (deploy_release agentlessReleaseDb 1
         ⟨"t", none, none, []⟩ 0).1.stageExecutions ∧
       se.release_stage_id = 1 ∧ se.status = "pending" ∧ se.agent_id = none ∧
       se.agent_name = none ∧
       StageUnreachable (deploy_release agentlessReleaseDb 1
         ⟨"t", none, none, []⟩ 0).1 se.id 1) ∧
    StageUnreachable (applyDispatchOps orphanDb
      [DispatchOp.startRelease 1 5, DispatchOp.completeRelease 1 true none 6]) 2 1 ∧
    pendingPickup.stage_execution_id ≠ 2 ∧
    (complete_release_pickup orphanDb 1 true none 9).1.releaseExecutions.find?
        (fun r => r.id == 1) =
      orphanDb.releaseExecutions.find? (fun r => r.id == 1) := by
  have hI : StageUnreachable orphanDb 2 1 :=
    ⟨by decide, ⟨orphanStageExec, rfl, rfl, rfl, rfl⟩, by decide⟩
  obtain ⟨hA, hB, hC, hD⟩ := c10_agentless_stage_never_runs
  refine ⟨?_, hB orphanDb 2 1 _ hI, ?_,
    hD orphanDb 2 1 1 true none 9 hI⟩
  · exact hA agentlessReleaseDb 1 ⟨"t", none, none, []⟩ 0 ⟨1, "rel"⟩ 0 agentlessStage
      rfl rfl rfl (by decide) (by decide) rfl rfl rfl
  · exact hC orphanDb 2 1 "uuid-1" [pendingPickup] hI rfl pendingPickup (by decide)
